import Mathlib

/-!
# Verification of the `uinput_cli` touch-event injector

A shallow embedding of `src/uinput_cli.c`, the touch-screen event-injection
tool (single-touch tap / press / release / longpress / swipe, and the
slot-based multi-touch operations mt-down / mt-move / mt-up, compiled in
when `MAX_SLOTS > 1`), together with theorems about the gesture sequences,
the coordinate mapper and the multi-touch slot tracker.

Modelling conventions:
* The device is an oracle `Env`: `absinfo` models the `EVIOCGABS` ioctl
  (`none` = the ioctl fails, i.e. the axis is unsupported), and `writeOk k`
  tells whether the `k`-th `write` syscall of the process succeeds.
* `Dev` records the number of `write` calls attempted so far and the list of
  successfully written events, in order.  A failed `write` writes nothing.
* C `int` values are modelled as `Int`.  The arithmetic inside `map_x` /
  `map_y` is performed in C `long long`, which never overflows for `int`
  inputs, so it is modelled as exact `Int` arithmetic with `Int.tdiv`
  (C99 division truncates toward zero); the final conversion of the
  `long long` result to the `int` return type is modelled by `int32`,
  the two's-complement reduction into `[-2^31, 2^31)` that the target
  compiler (GCC) defines for this narrowing.
* `usleep` emits nothing and is not modelled; no stated property mentions
  real time.
* Success (`RS_OK`) is modelled as `true`, failure (`RS_ERR`) as `false`.
-/

namespace Uinput

/-! ## Input-event constants (from `linux/input-event-codes.h`) -/

def EV_SYN : Nat := 0
def EV_KEY : Nat := 1
def EV_ABS : Nat := 3
def SYN_REPORT : Nat := 0
def SYN_MT_REPORT : Nat := 2
def BTN_TOOL_FINGER : Nat := 325
def BTN_TOUCH : Nat := 330
def ABS_X : Nat := 0
def ABS_Y : Nat := 1
def ABS_MT_SLOT : Nat := 47
def ABS_MT_POSITION_X : Nat := 53
def ABS_MT_POSITION_Y : Nat := 54
def ABS_MT_TRACKING_ID : Nat := 57

/-- `MAX_SLOTS` ceiling used by tracking-ID allocation in `mt_down`. -/
def TRACKING_ID_CEILING : Int := 1000000

/-! ## Device model -/

/-- One `struct input_event` as written by `write_event` (the timestamp is
not observable by any stated property and is omitted). -/
structure Ev where
  type : Nat
  code : Nat
  value : Int
deriving DecidableEq

/-- The device oracle: result of the `EVIOCGABS` ioctl per axis code
(`none` = ioctl failure / axis unsupported), and success of the `k`-th
`write` syscall. -/
structure AbsInfo where
  minimum : Int
  maximum : Int
deriving DecidableEq

structure Env where
  absinfo : Nat → Option AbsInfo
  writeOk : Nat → Bool

/-- Observable device history: number of `write` calls attempted, and the
events successfully written, in order. -/
structure Dev where
  nWrites : Nat
  trace : List Ev
deriving DecidableEq

def dev0 : Dev := ⟨0, []⟩

/-- An environment in which both axis queries fail and every write
succeeds (a device with no absolute-axis info). -/
def env0 : Env := ⟨fun _ => none, fun _ => true⟩

/-! ## Event emitter (`write_event`, `syn`, `syn_mt`, `btn_touch_set`) -/

/-- `write_event(fd, type, code, value)`: one `write` syscall; on failure
nothing is written and `RS_ERR` is returned. -/
def write_event (env : Env) (d : Dev) (t c : Nat) (v : Int) : Bool × Dev :=
  if env.writeOk d.nWrites then
    (true, ⟨d.nWrites + 1, d.trace ++ [⟨t, c, v⟩]⟩)
  else
    (false, ⟨d.nWrites + 1, d.trace⟩)

/-- A chain of `write_event` calls joined by `||` in the C source:
writes happen in order and the chain stops at the first failure. -/
def writeSeq (env : Env) (d : Dev) : List Ev → Bool × Dev
  | [] => (true, d)
  | e :: rest =>
    let r := write_event env d e.type e.code e.value
    if r.1 then writeSeq env r.2 rest else (false, r.2)

/-- `syn(fd)`: emit `SYN_REPORT` (a frame commit). -/
def syn (env : Env) (d : Dev) : Bool × Dev :=
  write_event env d EV_SYN SYN_REPORT 0

/-- `syn_mt(fd)`: emit `SYN_MT_REPORT`. -/
def syn_mt (env : Env) (d : Dev) : Bool × Dev :=
  write_event env d EV_SYN SYN_MT_REPORT 0

/-- `btn_touch_set(fd, val)`: write `BTN_TOUCH` then `SYN_REPORT`. -/
def btn_touch_set (env : Env) (d : Dev) (val : Int) : Bool × Dev :=
  let r := write_event env d EV_KEY BTN_TOUCH val
  if r.1 then syn env r.2 else (false, r.2)

/-! ## Coordinate mapper (`map_x`, `map_y`) -/

/-- Two's-complement reduction of a `long long` value into the `int`
return type of `map_x` / `map_y` (the narrowing GCC defines). -/
def int32 (z : Int) : Int := (z + 2 ^ 31) % 2 ^ 32 - 2 ^ 31

/-- The rescaling expression `lx*(max-min)/ui_w + min`, computed in
`long long` (exact over `Int` for `int` inputs); C99 `/` truncates
toward zero, which is `Int.tdiv`. -/
def rescale (a : AbsInfo) (w lx : Int) : Int :=
  Int.tdiv (lx * (a.maximum - a.minimum)) w + a.minimum

/-- The axis query of `map_x`: `EVIOCGABS(ABS_MT_POSITION_X)` first,
falling back to `EVIOCGABS(ABS_X)` (short-circuit `&&` in the source). -/
def queryX (env : Env) : Option AbsInfo :=
  match env.absinfo ABS_MT_POSITION_X with
  | some a => some a
  | none => env.absinfo ABS_X

/-- The axis query of `map_y`: `ABS_MT_POSITION_Y`, then `ABS_Y`. -/
def queryY (env : Env) : Option AbsInfo :=
  match env.absinfo ABS_MT_POSITION_Y with
  | some a => some a
  | none => env.absinfo ABS_Y

/-- Common body of `map_x` / `map_y` (the C source duplicates this body
for the two axes): identity when the configured dimension is zero or when
both axis queries fail, otherwise the rescale narrowed to `int`. -/
def mapWith (q : Option AbsInfo) (w lx : Int) : Int :=
  if w = 0 then lx
  else
    match q with
    | none => lx
    | some a => int32 (rescale a w lx)

/-- `map_x(fd, lx)` with the global `ui_w` passed explicitly. -/
def map_x (env : Env) (uiW lx : Int) : Int :=
  mapWith (queryX env) uiW lx

/-- `map_y(fd, ly)` with the global `ui_h` passed explicitly. -/
def map_y (env : Env) (uiH ly : Int) : Int :=
  mapWith (queryY env) uiH ly

/-! ## Single-touch gestures -/

/-- The six writes of the assert-contact block shared by `do_tap` and
`do_press`: `BTN_TOUCH 1`, `BTN_TOOL_FINGER 1`, mapped position on the
multi-touch axes, `SYN_MT_REPORT`, `SYN_REPORT`. -/
def tapAssertTrace (env : Env) (uiW uiH lx ly : Int) : List Ev :=
  [⟨EV_KEY, BTN_TOUCH, 1⟩, ⟨EV_KEY, BTN_TOOL_FINGER, 1⟩,
   ⟨EV_ABS, ABS_MT_POSITION_X, map_x env uiW lx⟩,
   ⟨EV_ABS, ABS_MT_POSITION_Y, map_y env uiH ly⟩,
   ⟨EV_SYN, SYN_MT_REPORT, 0⟩, ⟨EV_SYN, SYN_REPORT, 0⟩]

/-- The four writes of the release-contact block shared by `do_tap` and
`do_release`. -/
def tapReleaseTrace : List Ev :=
  [⟨EV_KEY, BTN_TOUCH, 0⟩, ⟨EV_KEY, BTN_TOOL_FINGER, 0⟩,
   ⟨EV_SYN, SYN_MT_REPORT, 0⟩, ⟨EV_SYN, SYN_REPORT, 0⟩]

/-- `do_tap(fd, lx, ly, hold_ms)`.  The `msleep(hold_ms)` between the two
frames emits nothing and is not modelled. -/
def do_tap (env : Env) (uiW uiH : Int) (d : Dev) (lx ly hold_ms : Int) :
    Bool × Dev :=
  let r1 := writeSeq env d (tapAssertTrace env uiW uiH lx ly)
  if r1.1 then writeSeq env r1.2 tapReleaseTrace
  else (false, r1.2)

/-- `do_press(fd, lx, ly)`: the assert-contact block only. -/
def do_press (env : Env) (uiW uiH : Int) (d : Dev) (lx ly : Int) :
    Bool × Dev :=
  writeSeq env d (tapAssertTrace env uiW uiH lx ly)

/-- `do_release(fd)`: the release-contact block only. -/
def do_release (env : Env) (d : Dev) : Bool × Dev :=
  writeSeq env d tapReleaseTrace

/-- `do_longpress(fd, lx, ly, hold_ms)`: the body is a single call to
`do_tap`. -/
def do_longpress (env : Env) (uiW uiH : Int) (d : Dev) (lx ly hold_ms : Int) :
    Bool × Dev :=
  do_tap env uiW uiH d lx ly hold_ms

/-- The swipe interpolation `x1 + (x2-x1)*t` with `t = (float)i/steps`,
truncated to `int`.  The C code evaluates this in 32-bit floating point;
here it is modelled as the exact rational value truncated toward zero
(`Int.tdiv` of the common-denominator form).  At `i = steps` the float
computation yields `t = 1.0` exactly and both agree, giving `x2`. -/
def interp (a b steps i : Int) : Int :=
  Int.tdiv (a * steps + (b - a) * i) steps

/-- The three writes of one iteration of the swipe movement loop at loop
index `i`: `ABS_X`, `ABS_Y`, `SYN_REPORT`. -/
def moveSeg (env : Env) (uiW uiH x1 y1 x2 y2 steps i : Int) : List Ev :=
  [⟨EV_ABS, ABS_X, map_x env uiW (interp x1 x2 steps i)⟩,
   ⟨EV_ABS, ABS_Y, map_y env uiH (interp y1 y2 steps i)⟩,
   ⟨EV_SYN, SYN_REPORT, 0⟩]

/-- The `for (i = 1; i <= steps; i++)` movement loop of `do_swipe`,
structurally recursing on the number of remaining iterations (`fuel`)
with `i` the current loop index.  `msleep(duration_ms/steps)` emits
nothing and is not modelled. -/
def swipeLoop (env : Env) (uiW uiH x1 y1 x2 y2 steps : Int) :
    Nat → Int → Dev → Bool × Dev
  | 0, _, d => (true, d)
  | fuel + 1, i, d =>
    let r := writeSeq env d (moveSeg env uiW uiH x1 y1 x2 y2 steps i)
    if r.1 then swipeLoop env uiW uiH x1 y1 x2 y2 steps fuel (i + 1) r.2
    else (false, r.2)

/-- `do_swipe(fd, x1, y1, x2, y2, duration_ms, steps)`: normalizes
`steps < 1` to `10`, performs a zero-hold `do_tap` at the start point,
runs the movement loop, then emits `BTN_TOUCH 0` and a final commit. -/
def do_swipe (env : Env) (uiW uiH : Int) (d : Dev)
    (x1 y1 x2 y2 duration_ms steps : Int) : Bool × Dev :=
  let steps := if steps < 1 then 10 else steps
  let r1 := do_tap env uiW uiH d x1 y1 0
  if r1.1 then
    let r2 := swipeLoop env uiW uiH x1 y1 x2 y2 steps steps.toNat 1 r1.2
    if r2.1 then
      writeSeq env r2.2 [⟨EV_KEY, BTN_TOUCH, 0⟩, ⟨EV_SYN, SYN_REPORT, 0⟩]
    else (false, r2.2)
  else (false, r1.2)

/-! ## Multi-touch slot tracker (compiled in when `MAX_SLOTS > 1`)

The process-wide globals `slot_tracking[]`, `next_tracking_id` and
`active_touches` become the explicit state `MT`; `maxSlots` is the
`MAX_SLOTS` macro.  At program start the table is all-zero,
`next_tracking_id = 1` and `active_touches = 0`. -/

structure MT where
  tracking : Int → Int
  nextId : Int
  active : Int

/-- Initial tracker state of one invocation. -/
def mtInit : MT := ⟨fun _ => 0, 1, 0⟩

/-- The six writes of the per-slot block of `mt_down`. -/
def mtDownTrace (env : Env) (uiW uiH slot tid lx ly : Int) : List Ev :=
  [⟨EV_ABS, ABS_MT_SLOT, slot⟩, ⟨EV_ABS, ABS_MT_TRACKING_ID, tid⟩,
   ⟨EV_ABS, ABS_MT_POSITION_X, map_x env uiW lx⟩,
   ⟨EV_ABS, ABS_MT_POSITION_Y, map_y env uiH ly⟩,
   ⟨EV_SYN, SYN_MT_REPORT, 0⟩, ⟨EV_SYN, SYN_REPORT, 0⟩]

/-- `mt_down(fd, slot, lx, ly)`.  Note the order in the source: the
tracking ID is allocated (with the wrap past the ceiling) and stored in
`slot_tracking[slot]` before any write; `active_touches` is incremented
only after the `BTN_TOUCH` assertion (issued when it was `0`) succeeded. -/
def mt_down (env : Env) (maxSlots uiW uiH : Int) (s : MT) (d : Dev)
    (slot lx ly : Int) : Bool × MT × Dev :=
  if slot < 0 ∨ maxSlots ≤ slot then (false, s, d)
  else
    let tid := s.nextId
    let nid := if s.nextId + 1 > TRACKING_ID_CEILING then 1 else s.nextId + 1
    let s1 : MT :=
      { s with tracking := fun j => if j = slot then tid else s.tracking j,
               nextId := nid }
    let p := if s.active = 0 then btn_touch_set env d 1 else (true, d)
    if p.1 then
      let s2 : MT := { s1 with active := s1.active + 1 }
      let r := writeSeq env p.2 (mtDownTrace env uiW uiH slot tid lx ly)
      (r.1, s2, r.2)
    else (false, s1, p.2)

/-- The five writes of `mt_move`. -/
def mtMoveTrace (env : Env) (uiW uiH slot lx ly : Int) : List Ev :=
  [⟨EV_ABS, ABS_MT_SLOT, slot⟩,
   ⟨EV_ABS, ABS_MT_POSITION_X, map_x env uiW lx⟩,
   ⟨EV_ABS, ABS_MT_POSITION_Y, map_y env uiH ly⟩,
   ⟨EV_SYN, SYN_MT_REPORT, 0⟩, ⟨EV_SYN, SYN_REPORT, 0⟩]

/-- `mt_move(fd, slot, lx, ly)`: rejected up front when the slot is out
of bounds or inactive; never changes the tracker state. -/
def mt_move (env : Env) (maxSlots uiW uiH : Int) (s : MT) (d : Dev)
    (slot lx ly : Int) : Bool × MT × Dev :=
  if slot < 0 ∨ maxSlots ≤ slot ∨ s.tracking slot = 0 then (false, s, d)
  else
    let r := writeSeq env d (mtMoveTrace env uiW uiH slot lx ly)
    (r.1, s, r.2)

/-- The four writes of the release block of `mt_up` (tracking ID `-1`
is the termination sentinel). -/
def mtUpTrace (slot : Int) : List Ev :=
  [⟨EV_ABS, ABS_MT_SLOT, slot⟩, ⟨EV_ABS, ABS_MT_TRACKING_ID, -1⟩,
   ⟨EV_SYN, SYN_MT_REPORT, 0⟩, ⟨EV_SYN, SYN_REPORT, 0⟩]

/-- `mt_up(fd, slot)`.  The guard and the four writes sit in one
short-circuit `||` chain, so on any write failure the state is left
unchanged; on success the slot is zeroed and `active_touches`
decremented (clamped at `0`), deasserting `BTN_TOUCH` when it reaches
zero. -/
def mt_up (env : Env) (maxSlots : Int) (s : MT) (d : Dev) (slot : Int) :
    Bool × MT × Dev :=
  if slot < 0 ∨ maxSlots ≤ slot ∨ s.tracking slot = 0 then (false, s, d)
  else
    let r := writeSeq env d (mtUpTrace slot)
    if r.1 then
      let s1 : MT :=
        { s with tracking := fun j => if j = slot then 0 else s.tracking j,
                 active := s.active - 1 }
      if s1.active ≤ 0 then
        let s2 : MT := { s1 with active := 0 }
        let r2 := btn_touch_set env r.2 0
        (r2.1, s2, r2.2)
      else (true, s1, r.2)
    else (false, s, r.2)

/-! ## Sequences of multi-touch operations -/

/-- One multi-touch command (one per CLI invocation; running a list of
them models the spec's multi-finger scenarios on a shared tracker). -/
inductive MTOp where
  | down (slot lx ly : Int)
  | move (slot lx ly : Int)
  | up (slot : Int)

/-- Apply one operation, keeping the state regardless of the result
(a failed command leaves exactly the state its semantics left). -/
def mtStep (env : Env) (maxSlots uiW uiH : Int) (sd : MT × Dev) (op : MTOp) :
    MT × Dev :=
  match op with
  | .down slot lx ly => (mt_down env maxSlots uiW uiH sd.1 sd.2 slot lx ly).2
  | .move slot lx ly => (mt_move env maxSlots uiW uiH sd.1 sd.2 slot lx ly).2
  | .up slot => (mt_up env maxSlots sd.1 sd.2 slot).2

/-- Run a list of multi-touch operations. -/
def runMT (env : Env) (maxSlots uiW uiH : Int) (ops : List MTOp)
    (sd : MT × Dev) : MT × Dev :=
  ops.foldl (mtStep env maxSlots uiW uiH) sd

/-! ## Observers -/

/-- Number of frame commits (`SYN_REPORT`) in a trace. -/
def synReports (tr : List Ev) : Nat :=
  (tr.filter fun e => e.type == EV_SYN && e.code == SYN_REPORT).length

/-- One step of the `BTN_TOUCH` observer: keep the value of an
`EV_KEY`/`BTN_TOUCH` event, ignore everything else. -/
def btnStep (acc : Int) (e : Ev) : Int :=
  if e.type == EV_KEY && e.code == BTN_TOUCH then e.value else acc

/-- The `BTN_TOUCH` state the kernel sees after a trace: the value of the
last successfully written `EV_KEY`/`BTN_TOUCH` event (`0` initially). -/
def btnTouchVal (tr : List Ev) : Int :=
  tr.foldl btnStep 0

/-- Number of slots `0 .. n-1` holding a nonzero tracking ID. -/
def activeCountAux (s : MT) : Nat → Nat
  | 0 => 0
  | n + 1 => activeCountAux s n + (if s.tracking (n : Int) = 0 then 0 else 1)

/-- Number of slots `0 .. maxSlots-1` holding a nonzero tracking ID. -/
def activeCount (maxSlots : Int) (s : MT) : Nat :=
  activeCountAux s maxSlots.toNat

/-- Number of operations in a list that reach the tracking-ID allocation
of `mt_down` (in-bounds `down` commands; the bounds guard precedes the
allocation, so out-of-bounds `down`s allocate nothing). -/
def allocCount (maxSlots : Int) : List MTOp → Nat
  | [] => 0
  | .down slot _ _ :: rest =>
    (if 0 ≤ slot ∧ slot < maxSlots then 1 else 0) + allocCount maxSlots rest
  | _ :: rest => allocCount maxSlots rest

/-- A `down` on an in-bounds slot is admissible only when that slot is
inactive (tracking ID `0`); every other operation is always admissible. -/
def freshOk (maxSlots : Int) (sd : MT × Dev) : MTOp → Bool
  | .down slot _ _ =>
    !(decide (0 ≤ slot) && decide (slot < maxSlots)) ||
      decide (sd.1.tracking slot = 0)
  | _ => true

/-- Every `down` in the list lands on a slot that is inactive (tracking
ID `0`) at the moment it executes — i.e. the sequence never re-downs an
active slot. -/
def downsFresh (env : Env) (maxSlots uiW uiH : Int) :
    MT × Dev → List MTOp → Bool
  | _, [] => true
  | sd, op :: rest =>
    freshOk maxSlots sd op &&
    downsFresh env maxSlots uiW uiH (mtStep env maxSlots uiW uiH sd op) rest

/-! ## Auxiliary definitions used by the statements -/

/-- Every `write` syscall of the run succeeds (the success path). -/
def allOk (env : Env) : Prop := ∀ n, env.writeOk n = true

/-- The events written by the movement loop of `do_swipe` when every
write succeeds: `fuel` iterations starting at loop index `i`. -/
def moveSegs (env : Env) (uiW uiH x1 y1 x2 y2 steps : Int) :
    Nat → Int → List Ev
  | 0, _ => []
  | fuel + 1, i =>
    moveSeg env uiW uiH x1 y1 x2 y2 steps i ++
      moveSegs env uiW uiH x1 y1 x2 y2 steps fuel (i + 1)

/-- A value representable in the C `int` return type of `map_x`/`map_y`. -/
def inInt32 (z : Int) : Prop := -(2 ^ 31) ≤ z ∧ z < 2 ^ 31

/-- No two simultaneously active slots (in bounds, nonzero tracking ID)
hold the same tracking ID. -/
def TidDistinct (maxSlots : Int) (s : MT) : Prop :=
  ∀ i j : Int, 0 ≤ i → i < maxSlots → 0 ≤ j → j < maxSlots → i ≠ j →
    s.tracking i ≠ 0 → s.tracking j ≠ 0 → s.tracking i ≠ s.tracking j

/-- Every active slot's tracking ID lies in `[1, s.nextId)`. -/
def TidBounded (maxSlots : Int) (s : MT) : Prop :=
  ∀ i : Int, 0 ≤ i → i < maxSlots →
    s.tracking i = 0 ∨ (1 ≤ s.tracking i ∧ s.tracking i < s.nextId)

/-- The slot-tracker consistency invariant of the success path: the
`active_touches` counter equals the number of active slots, the
`BTN_TOUCH` state seen by the kernel is asserted exactly while a touch
is active, and the allocation counter stays within `[1, ceiling]`. -/
def InvMT (maxSlots : Int) (s : MT) (d : Dev) : Prop :=
  s.active = (activeCount maxSlots s : Int) ∧
  (btnTouchVal d.trace = 1 ↔ 0 < s.active) ∧
  1 ≤ s.nextId ∧ s.nextId ≤ TRACKING_ID_CEILING

/-- A device whose `ABS_MT_POSITION_X` axis spans the whole nonnegative
`int` range `[0, 2^31-1]` and whose writes all succeed. -/
def envBig : Env :=
  ⟨fun c => if c = ABS_MT_POSITION_X then some ⟨0, 2147483647⟩ else none,
   fun _ => true⟩

/-- A device on which every `write` syscall fails. -/
def envFail : Env := ⟨fun _ => none, fun _ => false⟩

/-- The canonical tracker table with slot `0` active (tracking ID `1`)
and every other slot empty. -/
def trk10 : Int → Int := fun j => if j = 0 then 1 else 0

/-- One down/up cycle on slot `1`. -/
def pairOps : List MTOp := [MTOp.down 1 0 0, MTOp.up 1]

/-- The operation sequence that wraps the tracking-ID counter while slot
`0` stays held: down on slot `0`, then `999999` down/up cycles on slot
`1` (consuming IDs `2 .. 1000000` and wrapping the counter to `1`), then
one more down on slot `1`, which receives ID `1` again. -/
def wrapOps : List MTOp :=
  MTOp.down 0 0 0 :: ((List.replicate 999999 pairOps).flatten ++ [MTOp.down 1 0 0])

/-! ## Emitter lemmas -/

theorem write_event_allOk {env : Env} (h : allOk env) (d : Dev) (t c : Nat)
    (v : Int) :
    write_event env d t c v = (true, ⟨d.nWrites + 1, d.trace ++ [⟨t, c, v⟩]⟩) := by
  simp [write_event, h d.nWrites]

theorem writeSeq_allOk {env : Env} (h : allOk env) :
    ∀ (L : List Ev) (d : Dev),
      writeSeq env d L = (true, ⟨d.nWrites + L.length, d.trace ++ L⟩) := by
  intro L
  induction L with
  | nil => intro d; simp [writeSeq]
  | cons e rest ih =>
    intro d
    rw [writeSeq, write_event_allOk h]
    simp [ih]
    omega

theorem btn_touch_set_allOk {env : Env} (h : allOk env) (d : Dev) (v : Int) :
    btn_touch_set env d v =
      (true, ⟨d.nWrites + 2,
              d.trace ++ [⟨EV_KEY, BTN_TOUCH, v⟩, ⟨EV_SYN, SYN_REPORT, 0⟩]⟩) := by
  rw [btn_touch_set, write_event_allOk h]
  simp [syn, write_event_allOk h]

/-! ## Observer lemmas -/

theorem synReports_append (a b : List Ev) :
    synReports (a ++ b) = synReports a + synReports b := by
  simp [synReports, List.filter_append]

theorem synReports_tapAssert (env : Env) (uiW uiH lx ly : Int) :
    synReports (tapAssertTrace env uiW uiH lx ly) = 1 := by
  simp [tapAssertTrace, synReports, EV_KEY, EV_SYN, EV_ABS, BTN_TOUCH,
    BTN_TOOL_FINGER, ABS_MT_POSITION_X, ABS_MT_POSITION_Y, SYN_MT_REPORT,
    SYN_REPORT]

theorem synReports_tapRelease : synReports tapReleaseTrace = 1 := by
  simp [tapReleaseTrace, synReports, EV_KEY, EV_SYN, BTN_TOUCH,
    BTN_TOOL_FINGER, SYN_MT_REPORT, SYN_REPORT]

theorem synReports_moveSeg (env : Env) (uiW uiH x1 y1 x2 y2 steps i : Int) :
    synReports (moveSeg env uiW uiH x1 y1 x2 y2 steps i) = 1 := by
  simp [moveSeg, synReports, EV_ABS, EV_SYN, ABS_X, ABS_Y, SYN_REPORT]

theorem synReports_moveSegs (env : Env) (uiW uiH x1 y1 x2 y2 steps : Int) :
    ∀ (fuel : Nat) (i : Int),
      synReports (moveSegs env uiW uiH x1 y1 x2 y2 steps fuel i) = fuel := by
  intro fuel
  induction fuel with
  | zero => intro i; simp [moveSegs, synReports]
  | succ n ih =>
    intro i
    rw [moveSegs, synReports_append, synReports_moveSeg, ih]
    omega

theorem btnTouchVal_append (a b : List Ev) :
    btnTouchVal (a ++ b) = b.foldl btnStep (btnTouchVal a) := by
  simp [btnTouchVal, List.foldl_append]

theorem foldl_btnStep_noTouch :
    ∀ (L : List Ev) (x : Int),
      (∀ e ∈ L, (e.type == EV_KEY && e.code == BTN_TOUCH) = false) →
      L.foldl btnStep x = x := by
  intro L
  induction L with
  | nil => intro x _; rfl
  | cons e rest ih =>
    intro x hL
    have he := hL e (by simp)
    simp only [List.foldl_cons, btnStep, he, Bool.false_eq_true, if_false]
    exact ih x fun e' he' => hL e' (by simp [he'])

/-! ## Gesture closed forms on the success path -/

theorem do_tap_allOk {env : Env} (h : allOk env) (uiW uiH : Int) (d : Dev)
    (lx ly hold_ms : Int) :
    do_tap env uiW uiH d lx ly hold_ms =
      (true, ⟨d.nWrites + 10,
              d.trace ++ (tapAssertTrace env uiW uiH lx ly ++ tapReleaseTrace)⟩) := by
  rw [do_tap, writeSeq_allOk h]
  simp [writeSeq_allOk h, tapAssertTrace, tapReleaseTrace]

theorem swipeLoop_allOk {env : Env} (h : allOk env)
    (uiW uiH x1 y1 x2 y2 steps : Int) :
    ∀ (fuel : Nat) (i : Int) (d : Dev),
      swipeLoop env uiW uiH x1 y1 x2 y2 steps fuel i d =
        (true, ⟨d.nWrites + 3 * fuel,
                d.trace ++ moveSegs env uiW uiH x1 y1 x2 y2 steps fuel i⟩) := by
  intro fuel
  induction fuel with
  | zero => intro i d; simp [swipeLoop, moveSegs]
  | succ n ih =>
    intro i d
    rw [swipeLoop, writeSeq_allOk h]
    simp [ih, moveSegs, moveSeg]
    omega

theorem do_swipe_allOk {env : Env} (h : allOk env) (uiW uiH : Int) (d : Dev)
    (x1 y1 x2 y2 duration_ms steps : Int) (hs : 1 ≤ steps) :
    do_swipe env uiW uiH d x1 y1 x2 y2 duration_ms steps =
      (true, ⟨d.nWrites + 12 + 3 * steps.toNat,
              d.trace ++ (tapAssertTrace env uiW uiH x1 y1 ++ (tapReleaseTrace ++
                (moveSegs env uiW uiH x1 y1 x2 y2 steps steps.toNat 1 ++
                 [⟨EV_KEY, BTN_TOUCH, 0⟩, ⟨EV_SYN, SYN_REPORT, 0⟩])))⟩) := by
  have hns : ¬ steps < 1 := by omega
  rw [do_swipe]
  simp only [hns, if_false, do_tap_allOk h, swipeLoop_allOk h, writeSeq_allOk h]
  simp [writeSeq_allOk h, tapAssertTrace, tapReleaseTrace]
  omega

/-! ## Coordinate-mapper lemmas -/

theorem int32_eq_self {z : Int} (h1 : -(2 ^ 31) ≤ z) (h2 : z < 2 ^ 31) :
    int32 z = z := by
  rw [int32, Int.emod_eq_of_lt (by omega) (by omega)]
  omega

theorem tdiv_le_tdiv_of_le {a b c : Int} (hc : 0 < c) (h : a ≤ b) :
    a.tdiv c ≤ b.tdiv c := by
  rcases le_or_lt 0 a with ha | ha
  · rw [Int.tdiv_eq_ediv ha hc.le, Int.tdiv_eq_ediv (le_trans ha h) hc.le]
    exact Int.ediv_le_ediv hc h
  · rcases le_or_lt 0 b with hb | hb
    · have h1 : 0 ≤ (-a).tdiv c := Int.tdiv_nonneg (by omega) hc.le
      have h2 : 0 ≤ b.tdiv c := Int.tdiv_nonneg hb hc.le
      have e1 : (-a).tdiv c = -(a.tdiv c) := Int.neg_tdiv a c
      omega
    · have hA : (-a).tdiv c = (-a) / c := Int.tdiv_eq_ediv (by omega) hc.le
      have hB : (-b).tdiv c = (-b) / c := Int.tdiv_eq_ediv (by omega) hc.le
      have hle : (-b) / c ≤ (-a) / c := Int.ediv_le_ediv hc (by omega)
      have e1 : (-a).tdiv c = -(a.tdiv c) := Int.neg_tdiv a c
      have e2 : (-b).tdiv c = -(b.tdiv c) := Int.neg_tdiv b c
      omega

theorem rescale_mono {a : AbsInfo} {w x1 x2 : Int} (hw : 0 < w)
    (hmm : a.minimum ≤ a.maximum) (hx : x1 ≤ x2) :
    rescale a w x1 ≤ rescale a w x2 := by
  have hmul : x1 * (a.maximum - a.minimum) ≤ x2 * (a.maximum - a.minimum) :=
    mul_le_mul_of_nonneg_right hx (by omega)
  have := tdiv_le_tdiv_of_le hw hmul
  unfold rescale
  omega

theorem mapWith_mono {q : Option AbsInfo} {w x1 x2 : Int} (hw : 0 < w)
    (hx : x1 ≤ x2)
    (hq : ∀ a, q = some a → a.minimum ≤ a.maximum ∧
          inInt32 (rescale a w x1) ∧ inInt32 (rescale a w x2)) :
    mapWith q w x1 ≤ mapWith q w x2 := by
  have hw0 : ¬ w = 0 := by omega
  cases q with
  | none => simp [mapWith, hw0]; exact hx
  | some a =>
    obtain ⟨hmm, ⟨l1, u1⟩, ⟨l2, u2⟩⟩ := hq a rfl
    simp only [mapWith, hw0, if_false]
    rw [int32_eq_self l1 u1, int32_eq_self l2 u2]
    exact rescale_mono hw hmm hx

/-! ## Active-slot counting lemmas -/

theorem activeCountAux_congr {s s' : MT} :
    ∀ n : Nat,
      (∀ m : Nat, m < n → s'.tracking (m : Int) = s.tracking (m : Int)) →
      activeCountAux s' n = activeCountAux s n := by
  intro n
  induction n with
  | zero => intro _; rfl
  | succ k ih =>
    intro hm
    rw [activeCountAux, activeCountAux, ih fun m hm' => hm m (by omega),
      hm k (by omega)]

theorem activeCountAux_mtInit : ∀ n : Nat, activeCountAux mtInit n = 0 := by
  intro n
  induction n with
  | zero => rfl
  | succ k ih => rw [activeCountAux, ih]; simp [mtInit]

theorem activeCountAux_set_fresh {s s' : MT} {slot v : Int}
    (hupd : ∀ j, s'.tracking j = if j = slot then v else s.tracking j)
    (h0 : s.tracking slot = 0) (hv : v ≠ 0) :
    ∀ n : Nat, 0 ≤ slot → slot < (n : Int) →
      activeCountAux s' n = activeCountAux s n + 1 := by
  intro n
  induction n with
  | zero => intro h1 h2; exfalso; omega
  | succ k ih =>
    intro h1 h2
    by_cases hk : slot = (k : Int)
    · have hs' : s'.tracking (k : Int) = v := by
        rw [hupd]; simp [hk.symm]
      have hs : s.tracking (k : Int) = 0 := hk ▸ h0
      have hcongr : activeCountAux s' k = activeCountAux s k := by
        refine activeCountAux_congr k fun m hm => ?_
        have hne : (m : Int) ≠ slot := by
          rw [hk]; intro he
          have : m = k := by omega
          omega
        rw [hupd]; simp [hne]
      rw [activeCountAux, activeCountAux, hcongr, hs', hs]
      simp [hv]
    · have h2' : slot < (k : Int) := by
        omega
      have hsame : s'.tracking (k : Int) = s.tracking (k : Int) := by
        have hne : (k : Int) ≠ slot := fun he => hk he.symm
        rw [hupd]; simp [hne]
      rw [activeCountAux, activeCountAux, ih h1 h2', hsame]
      omega

theorem activeCountAux_set_zero {s s' : MT} {slot : Int}
    (hupd : ∀ j, s'.tracking j = if j = slot then 0 else s.tracking j)
    (h0 : s.tracking slot ≠ 0) :
    ∀ n : Nat, 0 ≤ slot → slot < (n : Int) →
      activeCountAux s n = activeCountAux s' n + 1 := by
  intro n
  induction n with
  | zero => intro h1 h2; exfalso; omega
  | succ k ih =>
    intro h1 h2
    by_cases hk : slot = (k : Int)
    · have hs' : s'.tracking (k : Int) = 0 := by
        rw [hupd]; simp [hk.symm]
      have hs : s.tracking (k : Int) ≠ 0 := hk ▸ h0
      have hcongr : activeCountAux s' k = activeCountAux s k := by
        refine activeCountAux_congr k fun m hm => ?_
        have hne : (m : Int) ≠ slot := by
          rw [hk]; intro he
          have : m = k := by omega
          omega
        rw [hupd]; simp [hne]
      rw [activeCountAux, activeCountAux, hcongr, hs']
      simp [hs]
    · have h2' : slot < (k : Int) := by
        omega
      have hsame : s'.tracking (k : Int) = s.tracking (k : Int) := by
        have hne : (k : Int) ≠ slot := fun he => hk he.symm
        rw [hupd]; simp [hne]
      rw [activeCountAux, activeCountAux, ih h1 h2', hsame]
      omega

/-! ## Multi-touch closed forms on the success path -/

theorem mt_down_allOk {env : Env} (h : allOk env) (maxSlots uiW uiH : Int)
    (s : MT) (d : Dev) (slot lx ly : Int) (hs0 : 0 ≤ slot)
    (hsm : slot < maxSlots) :
    mt_down env maxSlots uiW uiH s d slot lx ly =
      (true,
       ⟨fun j => if j = slot then s.nextId else s.tracking j,
        if s.nextId + 1 > TRACKING_ID_CEILING then 1 else s.nextId + 1,
        s.active + 1⟩,
       ⟨d.nWrites + (if s.active = 0 then 8 else 6),
        d.trace ++
          ((if s.active = 0 then
              [⟨EV_KEY, BTN_TOUCH, 1⟩, ⟨EV_SYN, SYN_REPORT, 0⟩]
            else ([] : List Ev)) ++
           mtDownTrace env uiW uiH slot s.nextId lx ly)⟩) := by
  have hg : ¬ (slot < 0 ∨ maxSlots ≤ slot) := by omega
  rw [mt_down]
  by_cases hact : s.active = 0
  · simp only [hg, if_false, hact, if_pos, btn_touch_set_allOk h,
      writeSeq_allOk h]
    simp [mtDownTrace, hact]
  · simp only [hg, if_false, hact, if_neg, writeSeq_allOk h]
    simp [mtDownTrace, hact]

theorem mt_move_allOk {env : Env} (h : allOk env) (maxSlots uiW uiH : Int)
    (s : MT) (d : Dev) (slot lx ly : Int) (hs0 : 0 ≤ slot)
    (hsm : slot < maxSlots) (hact : s.tracking slot ≠ 0) :
    mt_move env maxSlots uiW uiH s d slot lx ly =
      (true, s,
       ⟨d.nWrites + 5, d.trace ++ mtMoveTrace env uiW uiH slot lx ly⟩) := by
  have hg : ¬ (slot < 0 ∨ maxSlots ≤ slot ∨ s.tracking slot = 0) := by
    push_neg
    exact ⟨by omega, by omega, hact⟩
  rw [mt_move]
  simp only [hg, if_false, writeSeq_allOk h]
  simp [mtMoveTrace]

theorem mt_up_allOk {env : Env} (h : allOk env) (maxSlots : Int) (s : MT)
    (d : Dev) (slot : Int) (hs0 : 0 ≤ slot) (hsm : slot < maxSlots)
    (hact : s.tracking slot ≠ 0) :
    mt_up env maxSlots s d slot =
      (true,
       ⟨fun j => if j = slot then 0 else s.tracking j, s.nextId,
        if s.active - 1 ≤ 0 then 0 else s.active - 1⟩,
       ⟨d.nWrites + (if s.active - 1 ≤ 0 then 6 else 4),
        d.trace ++ (mtUpTrace slot ++
          (if s.active - 1 ≤ 0 then
             [⟨EV_KEY, BTN_TOUCH, 0⟩, ⟨EV_SYN, SYN_REPORT, 0⟩]
           else ([] : List Ev)))⟩) := by
  have hg : ¬ (slot < 0 ∨ maxSlots ≤ slot ∨ s.tracking slot = 0) := by
    push_neg
    exact ⟨by omega, by omega, hact⟩
  rw [mt_up]
  simp only [hg, if_false, writeSeq_allOk h]
  by_cases hle : s.active - 1 ≤ 0
  · simp only [hle, if_pos, btn_touch_set_allOk h]
    simp [mtUpTrace, hle]
  · simp only [hle, if_neg]
    simp [mtUpTrace, hle]

/-! ## `BTN_TOUCH` bookkeeping of the multi-touch write lists -/

theorem noTouch_mtDownTrace (env : Env) (uiW uiH slot tid lx ly : Int) :
    ∀ e ∈ mtDownTrace env uiW uiH slot tid lx ly,
      (e.type == EV_KEY && e.code == BTN_TOUCH) = false := by
  intro e he
  simp only [mtDownTrace, List.mem_cons, List.mem_singleton,
    List.not_mem_nil, or_false] at he
  rcases he with rfl | rfl | rfl | rfl | rfl | rfl <;> rfl

theorem noTouch_mtMoveTrace (env : Env) (uiW uiH slot lx ly : Int) :
    ∀ e ∈ mtMoveTrace env uiW uiH slot lx ly,
      (e.type == EV_KEY && e.code == BTN_TOUCH) = false := by
  intro e he
  simp only [mtMoveTrace, List.mem_cons, List.mem_singleton,
    List.not_mem_nil, or_false] at he
  rcases he with rfl | rfl | rfl | rfl | rfl <;> rfl

theorem noTouch_mtUpTrace (slot : Int) :
    ∀ e ∈ mtUpTrace slot,
      (e.type == EV_KEY && e.code == BTN_TOUCH) = false := by
  intro e he
  simp only [mtUpTrace, List.mem_cons, List.mem_singleton,
    List.not_mem_nil, or_false] at he
  rcases he with rfl | rfl | rfl | rfl <;> rfl

theorem foldl_btnStep_btnPair (x v : Int) :
    List.foldl btnStep x
      [⟨EV_KEY, BTN_TOUCH, v⟩, ⟨EV_SYN, SYN_REPORT, 0⟩] = v := by
  simp [btnStep, EV_KEY, EV_SYN, BTN_TOUCH, SYN_REPORT]

/-! ## Preservation of the tracker invariant (success path) -/

theorem InvMT_mt_down {env : Env} {maxSlots uiW uiH : Int} (h : allOk env)
    {s : MT} {d : Dev} (hinv : InvMT maxSlots s d) (slot lx ly : Int)
    (hfresh : 0 ≤ slot → slot < maxSlots → s.tracking slot = 0) :
    InvMT maxSlots (mt_down env maxSlots uiW uiH s d slot lx ly).2.1
      (mt_down env maxSlots uiW uiH s d slot lx ly).2.2 := by
  obtain ⟨hcnt, hbtn, hn1, hn2⟩ := hinv
  by_cases hg : slot < 0 ∨ maxSlots ≤ slot
  · rw [mt_down, if_pos hg]
    exact ⟨hcnt, hbtn, hn1, hn2⟩
  · push_neg at hg
    obtain ⟨hs0, hsm⟩ := hg
    rw [mt_down_allOk h maxSlots uiW uiH s d slot lx ly hs0 hsm]
    dsimp only
    have hmax : ((maxSlots.toNat : Nat) : Int) = maxSlots :=
      Int.toNat_of_nonneg (by omega)
    have hcount :
        activeCount maxSlots
          (⟨fun j => if j = slot then s.nextId else s.tracking j,
            if s.nextId + 1 > TRACKING_ID_CEILING then 1 else s.nextId + 1,
            s.active + 1⟩ : MT) = activeCount maxSlots s + 1 := by
      refine activeCountAux_set_fresh (fun j => rfl) (hfresh hs0 hsm)
        (by omega) maxSlots.toNat hs0 (by omega)
    have hceil : TRACKING_ID_CEILING = (1000000 : Int) := rfl
    refine ⟨?_, ?_, ?_, ?_⟩
    · show s.active + 1 = _
      rw [hcount]
      push_cast
      omega
    · show btnTouchVal _ = 1 ↔ 0 < s.active + 1
      have hpos : (0 : Int) ≤ activeCount maxSlots s := by positivity
      by_cases hact : s.active = 0
      · rw [btnTouchVal_append, List.foldl_append]
        simp only [if_pos hact]
        rw [foldl_btnStep_btnPair,
          foldl_btnStep_noTouch _ _ (noTouch_mtDownTrace env uiW uiH slot
            s.nextId lx ly)]
        constructor
        · intro _; omega
        · intro _; rfl
      · rw [btnTouchVal_append, List.foldl_append]
        simp only [if_neg hact]
        rw [List.foldl_nil,
          foldl_btnStep_noTouch _ _ (noTouch_mtDownTrace env uiW uiH slot
            s.nextId lx ly)]
        have hgt : 0 < s.active := by omega
        constructor
        · intro _; omega
        · intro _; exact hbtn.mpr hgt
    · show (1 : Int) ≤ _
      dsimp only
      split
      · omega
      · omega
    · show _ ≤ TRACKING_ID_CEILING
      dsimp only
      split
      · omega
      · omega

theorem InvMT_mt_move {env : Env} {maxSlots uiW uiH : Int} (h : allOk env)
    {s : MT} {d : Dev} (hinv : InvMT maxSlots s d) (slot lx ly : Int) :
    InvMT maxSlots (mt_move env maxSlots uiW uiH s d slot lx ly).2.1
      (mt_move env maxSlots uiW uiH s d slot lx ly).2.2 := by
  obtain ⟨hcnt, hbtn, hn1, hn2⟩ := hinv
  by_cases hg : slot < 0 ∨ maxSlots ≤ slot ∨ s.tracking slot = 0
  · rw [mt_move, if_pos hg]
    exact ⟨hcnt, hbtn, hn1, hn2⟩
  · push_neg at hg
    rw [mt_move_allOk h maxSlots uiW uiH s d slot lx ly (by omega)
      (by omega) hg.2.2]
    refine ⟨hcnt, ?_, hn1, hn2⟩
    show btnTouchVal _ = 1 ↔ _
    rw [btnTouchVal_append,
      foldl_btnStep_noTouch _ _ (noTouch_mtMoveTrace env uiW uiH slot lx ly)]
    exact hbtn

theorem InvMT_mt_up {env : Env} {maxSlots : Int} (h : allOk env)
    {s : MT} {d : Dev} (hinv : InvMT maxSlots s d) (slot : Int) :
    InvMT maxSlots (mt_up env maxSlots s d slot).2.1
      (mt_up env maxSlots s d slot).2.2 := by
  obtain ⟨hcnt, hbtn, hn1, hn2⟩ := hinv
  by_cases hg : slot < 0 ∨ maxSlots ≤ slot ∨ s.tracking slot = 0
  · rw [mt_up, if_pos hg]
    exact ⟨hcnt, hbtn, hn1, hn2⟩
  · push_neg at hg
    obtain ⟨hs0', hsm', htr⟩ := hg
    have hs0 : 0 ≤ slot := by omega
    have hsm : slot < maxSlots := by omega
    rw [mt_up_allOk h maxSlots s d slot hs0 hsm htr]
    dsimp only
    have hmax : ((maxSlots.toNat : Nat) : Int) = maxSlots :=
      Int.toNat_of_nonneg (by omega)
    by_cases hle : s.active - 1 ≤ 0
    · simp only [if_pos hle]
      have hcount :
          activeCount maxSlots s =
            activeCount maxSlots
              (⟨fun j => if j = slot then 0 else s.tracking j, s.nextId,
                0⟩ : MT) + 1 :=
        activeCountAux_set_zero (fun j => rfl) htr maxSlots.toNat hs0
          (by omega)
      refine ⟨?_, ?_, hn1, hn2⟩
      · show (0 : Int) = _
        omega
      · show btnTouchVal _ = 1 ↔ _
        rw [btnTouchVal_append, List.foldl_append,
          foldl_btnStep_noTouch _ _ (noTouch_mtUpTrace slot),
          foldl_btnStep_btnPair]
        simp
    · simp only [if_neg hle, List.append_nil]
      have hcount :
          activeCount maxSlots s =
            activeCount maxSlots
              (⟨fun j => if j = slot then 0 else s.tracking j, s.nextId,
                s.active - 1⟩ : MT) + 1 :=
        activeCountAux_set_zero (fun j => rfl) htr maxSlots.toNat hs0
          (by omega)
      refine ⟨?_, ?_, hn1, hn2⟩
      · show s.active - 1 = _
        omega
      · show btnTouchVal _ = 1 ↔ _
        dsimp only
        rw [btnTouchVal_append,
          foldl_btnStep_noTouch _ _ (noTouch_mtUpTrace slot)]
        have hgt : 0 < s.active := by omega
        constructor
        · intro _; omega
        · intro _; exact hbtn.mpr hgt

theorem InvMT_run {env : Env} {maxSlots uiW uiH : Int} (h : allOk env) :
    ∀ (ops : List MTOp) (sd : MT × Dev), InvMT maxSlots sd.1 sd.2 →
      downsFresh env maxSlots uiW uiH sd ops = true →
      InvMT maxSlots (runMT env maxSlots uiW uiH ops sd).1
        (runMT env maxSlots uiW uiH ops sd).2 := by
  intro ops
  induction ops with
  | nil => intro sd hinv _; exact hinv
  | cons op rest ih =>
    intro sd hinv hf
    rw [downsFresh, Bool.and_eq_true] at hf
    obtain ⟨hop, hrest⟩ := hf
    show InvMT maxSlots
      (runMT env maxSlots uiW uiH rest (mtStep env maxSlots uiW uiH sd op)).1
      (runMT env maxSlots uiW uiH rest (mtStep env maxSlots uiW uiH sd op)).2
    refine ih _ ?_ hrest
    cases op with
    | down slot lx ly =>
      refine InvMT_mt_down h hinv slot lx ly fun hs0 hsm => ?_
      simp only [freshOk] at hop
      rw [decide_eq_true hs0, decide_eq_true hsm] at hop
      simp at hop
      exact hop
    | move slot lx ly => exact InvMT_mt_move h hinv slot lx ly
    | up slot => exact InvMT_mt_up h hinv slot

/-! ## Tracker-state characterizations under an arbitrary device
(the slot-table and counter updates of `mt_down` happen before and
independently of the writes; `mt_move` never changes the tracker;
`mt_up` either zeroes the slot or, on write failure, leaves it alone) -/

theorem mt_down_mtState (env : Env) (maxSlots uiW uiH : Int) (s : MT)
    (d : Dev) (slot lx ly : Int) (hs0 : 0 ≤ slot) (hsm : slot < maxSlots) :
    (∀ j, (mt_down env maxSlots uiW uiH s d slot lx ly).2.1.tracking j =
        if j = slot then s.nextId else s.tracking j) ∧
    (mt_down env maxSlots uiW uiH s d slot lx ly).2.1.nextId =
      (if s.nextId + 1 > TRACKING_ID_CEILING then 1 else s.nextId + 1) := by
  have hg : ¬ (slot < 0 ∨ maxSlots ≤ slot) := by omega
  rw [mt_down, if_neg hg]
  dsimp only
  constructor
  · intro j
    split <;> split <;> rfl
  · split <;> split <;> rfl

theorem mt_down_oob (env : Env) (maxSlots uiW uiH : Int) (s : MT) (d : Dev)
    (slot lx ly : Int) (hg : slot < 0 ∨ maxSlots ≤ slot) :
    mt_down env maxSlots uiW uiH s d slot lx ly = (false, s, d) := by
  rw [mt_down, if_pos hg]

theorem mt_move_mtState (env : Env) (maxSlots uiW uiH : Int) (s : MT)
    (d : Dev) (slot lx ly : Int) :
    (mt_move env maxSlots uiW uiH s d slot lx ly).2.1 = s := by
  rw [mt_move]
  split <;> rfl

theorem mt_up_mtState (env : Env) (maxSlots : Int) (s : MT) (d : Dev)
    (slot : Int) :
    (mt_up env maxSlots s d slot).2.1.nextId = s.nextId ∧
    ∀ j, (mt_up env maxSlots s d slot).2.1.tracking j = s.tracking j ∨
         (mt_up env maxSlots s d slot).2.1.tracking j = 0 := by
  rw [mt_up]
  split
  · exact ⟨rfl, fun j => Or.inl rfl⟩
  · dsimp only
    split
    · split
      · refine ⟨rfl, fun j => ?_⟩
        by_cases hj : j = slot
        · exact Or.inr (by simp [hj])
        · exact Or.inl (by simp [hj])
      · refine ⟨rfl, fun j => ?_⟩
        by_cases hj : j = slot
        · exact Or.inr (by simp [hj])
        · exact Or.inl (by simp [hj])
    · exact ⟨rfl, fun j => Or.inl rfl⟩

/-! ## Tracking-ID distinctness invariant -/

theorem TidInv_weaken {maxSlots : Int} {s s' : MT}
    (hnext : s'.nextId = s.nextId)
    (htr : ∀ j, s'.tracking j = s.tracking j ∨ s'.tracking j = 0)
    (hd : TidDistinct maxSlots s) (hb : TidBounded maxSlots s) :
    TidDistinct maxSlots s' ∧ TidBounded maxSlots s' := by
  constructor
  · intro i j hi1 hi2 hj1 hj2 hij hni hnj
    rcases htr i with hi | hi
    · rcases htr j with hj | hj
      · rw [hi, hj]
        rw [hi] at hni
        rw [hj] at hnj
        exact hd i j hi1 hi2 hj1 hj2 hij hni hnj
      · exact absurd hj hnj
    · exact absurd hi hni
  · intro i hi1 hi2
    rcases htr i with hi | hi
    · rw [hi, hnext]
      exact hb i hi1 hi2
    · exact Or.inl hi

theorem TidInv_alloc {maxSlots : Int} {s s' : MT} {slot : Int}
    (hs0 : 0 ≤ slot) (hsm : slot < maxSlots)
    (htr : ∀ j, s'.tracking j = if j = slot then s.nextId else s.tracking j)
    (hnx : s'.nextId = s.nextId + 1)
    (hd : TidDistinct maxSlots s) (hb : TidBounded maxSlots s)
    (hn1 : 1 ≤ s.nextId) :
    TidDistinct maxSlots s' ∧ TidBounded maxSlots s' := by
  constructor
  · intro i j hi1 hi2 hj1 hj2 hij hni hnj
    rw [htr i] at hni ⊢
    rw [htr j] at hnj ⊢
    by_cases hi : i = slot <;> by_cases hj : j = slot
    · exact absurd (hi.trans hj.symm) hij
    · rw [if_pos hi, if_neg hj]
      rw [if_neg hj] at hnj
      rcases hb j hj1 hj2 with h0 | ⟨hl, hu⟩
      · exact absurd h0 hnj
      · omega
    · rw [if_neg hi, if_pos hj]
      rw [if_neg hi] at hni
      rcases hb i hi1 hi2 with h0 | ⟨hl, hu⟩
      · exact absurd h0 hni
      · omega
    · rw [if_neg hi, if_neg hj]
      rw [if_neg hi] at hni
      rw [if_neg hj] at hnj
      exact hd i j hi1 hi2 hj1 hj2 hij hni hnj
  · intro i hi1 hi2
    rw [htr i, hnx]
    by_cases hi : i = slot
    · rw [if_pos hi]
      right
      omega
    · rw [if_neg hi]
      rcases hb i hi1 hi2 with h0 | ⟨hl, hu⟩
      · exact Or.inl h0
      · right
        omega

theorem TidInv_run (env : Env) (maxSlots uiW uiH : Int) :
    ∀ (ops : List MTOp) (s : MT) (d : Dev),
      TidDistinct maxSlots s → TidBounded maxSlots s → 1 ≤ s.nextId →
      s.nextId + (allocCount maxSlots ops : Int) ≤ TRACKING_ID_CEILING →
      TidDistinct maxSlots (runMT env maxSlots uiW uiH ops (s, d)).1 ∧
      TidBounded maxSlots (runMT env maxSlots uiW uiH ops (s, d)).1 ∧
      (runMT env maxSlots uiW uiH ops (s, d)).1.nextId =
        s.nextId + (allocCount maxSlots ops : Int) := by
  intro ops
  induction ops with
  | nil =>
    intro s d hd hb hn1 hbound
    refine ⟨hd, hb, ?_⟩
    simp [runMT, allocCount]
  | cons op rest ih =>
    intro s d hd hb hn1 hbound
    have hrun : runMT env maxSlots uiW uiH (op :: rest) (s, d) =
        runMT env maxSlots uiW uiH rest
          (mtStep env maxSlots uiW uiH (s, d) op) := rfl
    rw [hrun]
    cases op with
    | down slot lx ly =>
      by_cases hg : slot < 0 ∨ maxSlots ≤ slot
      · have hstep : mtStep env maxSlots uiW uiH (s, d)
            (MTOp.down slot lx ly) = (s, d) := by
          show (mt_down env maxSlots uiW uiH s d slot lx ly).2 = (s, d)
          rw [mt_down_oob env maxSlots uiW uiH s d slot lx ly hg]
        have hcnt : allocCount maxSlots (MTOp.down slot lx ly :: rest) =
            allocCount maxSlots rest := by
          rw [allocCount, if_neg (by omega : ¬ (0 ≤ slot ∧ slot < maxSlots))]
          omega
        rw [hstep]
        rw [hcnt] at hbound ⊢
        exact ih s d hd hb hn1 hbound
      · push_neg at hg
        obtain ⟨hs0, hsm⟩ := hg
        have hcnt : allocCount maxSlots (MTOp.down slot lx ly :: rest) =
            1 + allocCount maxSlots rest := by
          rw [allocCount, if_pos ⟨hs0, hsm⟩]
        rw [hcnt] at hbound
        have hceil : TRACKING_ID_CEILING = (1000000 : Int) := rfl
        have hnw : ¬ (s.nextId + 1 > TRACKING_ID_CEILING) := by
          have : (0 : Int) ≤ (allocCount maxSlots rest : Int) := by positivity
          push_cast at hbound
          omega
        obtain ⟨htr, hnx⟩ :=
          mt_down_mtState env maxSlots uiW uiH s d slot lx ly hs0 hsm
        rw [if_neg hnw] at hnx
        rcases hstep : mtStep env maxSlots uiW uiH (s, d)
            (MTOp.down slot lx ly) with ⟨s', d'⟩
        have hs' : (mt_down env maxSlots uiW uiH s d slot lx ly).2.1 = s' :=
          congrArg Prod.fst hstep
        rw [hs'] at htr hnx
        obtain ⟨hd', hb'⟩ := TidInv_alloc hs0 hsm htr hnx hd hb hn1
        have := ih s' d' hd' hb' (by omega)
          (by rw [hnx]; push_cast at hbound ⊢; omega)
        push_cast at hbound this ⊢
        rw [hnx] at this
        refine ⟨this.1, this.2.1, ?_⟩
        rw [this.2.2]
        omega
    | move slot lx ly =>
      have hs' : (mt_move env maxSlots uiW uiH s d slot lx ly).2.1 = s :=
        mt_move_mtState env maxSlots uiW uiH s d slot lx ly
      rcases hstep : mtStep env maxSlots uiW uiH (s, d)
          (MTOp.move slot lx ly) with ⟨s', d'⟩
      have hss : s' = s := (congrArg Prod.fst hstep).symm.trans hs'
      have hcnt : allocCount maxSlots (MTOp.move slot lx ly :: rest) =
          allocCount maxSlots rest := rfl
      rw [hcnt] at hbound ⊢
      rw [hss]
      exact ih s d' hd hb hn1 hbound
    | up slot =>
      obtain ⟨hnx, htr⟩ := mt_up_mtState env maxSlots s d slot
      rcases hstep : mtStep env maxSlots uiW uiH (s, d) (MTOp.up slot)
          with ⟨s', d'⟩
      have hs' : (mt_up env maxSlots s d slot).2.1 = s' :=
        congrArg Prod.fst hstep
      rw [hs'] at htr hnx
      obtain ⟨hd', hb'⟩ := TidInv_weaken hnx htr hd hb
      have hcnt : allocCount maxSlots (MTOp.up slot :: rest) =
          allocCount maxSlots rest := rfl
      rw [hcnt] at hbound ⊢
      have := ih s' d' hd' hb' (by omega) (by rw [hnx]; exact hbound)
      rw [hnx] at this
      exact this

/-! ## The counter-wraparound run: slot `0` held while `999999` down/up
cycles on slot `1` walk the allocation counter from `2` to `1000000` and
wrap it back to `1`, after which slot `1` receives tracking ID `1` — the
ID slot `0` still holds. -/

theorem runMT_append (env : Env) (maxSlots uiW uiH : Int) (a b : List MTOp)
    (sd : MT × Dev) :
    runMT env maxSlots uiW uiH (a ++ b) sd =
      runMT env maxSlots uiW uiH b (runMT env maxSlots uiW uiH a sd) := by
  rw [runMT, runMT, runMT, List.foldl_append]

theorem runMT_cons (env : Env) (maxSlots uiW uiH : Int) (op : MTOp)
    (rest : List MTOp) (sd : MT × Dev) :
    runMT env maxSlots uiW uiH (op :: rest) sd =
      runMT env maxSlots uiW uiH rest (mtStep env maxSlots uiW uiH sd op) := by
  rw [runMT, runMT, List.foldl_cons]

theorem allOk_env0 : allOk env0 := fun _ => rfl

theorem wrap_step0 (d : Dev) :
    (mtStep env0 2 0 0 (mtInit, d) (MTOp.down 0 0 0)).1 =
      (⟨trk10, 2, 1⟩ : MT) := by
  show (mt_down env0 2 0 0 mtInit d 0 0 0).2.1 = _
  rw [mt_down_allOk allOk_env0 2 0 0 mtInit d 0 0 0 (by omega) (by omega)]
  dsimp only
  have hA : (fun j => if j = (0 : Int) then mtInit.nextId
      else mtInit.tracking j) = trk10 := by
    funext j
    by_cases hj : j = 0 <;> simp [trk10, mtInit, hj]
  rw [hA]
  norm_num [mtInit, TRACKING_ID_CEILING]

theorem wrap_pair_step (n : Int) (h2 : 2 ≤ n)
    (hn : n ≤ TRACKING_ID_CEILING - 1) (d : Dev) :
    (runMT env0 2 0 0 pairOps ((⟨trk10, n, 1⟩ : MT), d)).1 =
      (⟨trk10, n + 1, 1⟩ : MT) := by
  have hceil : TRACKING_ID_CEILING = (1000000 : Int) := rfl
  rw [pairOps, runMT]
  rw [List.foldl_cons, List.foldl_cons, List.foldl_nil]
  rcases hstep : mtStep env0 2 0 0 ((⟨trk10, n, 1⟩ : MT), d)
      (MTOp.down 1 0 0) with ⟨s1, d1⟩
  have hs1 : s1 = (⟨fun j => if j = 1 then n else trk10 j, n + 1, 2⟩ : MT) := by
    have h : (mt_down env0 2 0 0 (⟨trk10, n, 1⟩ : MT) d 1 0 0).2.1 = s1 :=
      congrArg Prod.fst hstep
    rw [mt_down_allOk allOk_env0 2 0 0 (⟨trk10, n, 1⟩ : MT) d 1 0 0
      (by omega) (by omega)] at h
    dsimp only at h
    rw [← h]
    rw [if_neg (by omega : ¬ (n + 1 > TRACKING_ID_CEILING))]
    norm_num
  rw [hs1]
  show (mt_up env0 2 _ d1 1).2.1 = _
  have htid : (⟨fun j => if j = 1 then n else trk10 j, n + 1, 2⟩ :
      MT).tracking 1 ≠ 0 := by
    simp
    omega
  rw [mt_up_allOk allOk_env0 2 _ d1 1 (by omega) (by omega) htid]
  dsimp only
  have hB : (fun j => if j = (1 : Int) then 0
      else (⟨fun j => if j = 1 then n else trk10 j, n + 1, 2⟩ :
        MT).tracking j) = trk10 := by
    funext j
    by_cases hj : j = 1 <;> simp [trk10, hj]
  rw [hB]
  norm_num

theorem wrap_pair_step_wrap (d : Dev) :
    (runMT env0 2 0 0 pairOps ((⟨trk10, 1000000, 1⟩ : MT), d)).1 =
      (⟨trk10, 1, 1⟩ : MT) := by
  rw [pairOps, runMT]
  rw [List.foldl_cons, List.foldl_cons, List.foldl_nil]
  rcases hstep : mtStep env0 2 0 0 ((⟨trk10, 1000000, 1⟩ : MT), d)
      (MTOp.down 1 0 0) with ⟨s1, d1⟩
  have hs1 : s1 =
      (⟨fun j => if j = 1 then 1000000 else trk10 j, 1, 2⟩ : MT) := by
    have h : (mt_down env0 2 0 0 (⟨trk10, 1000000, 1⟩ : MT) d 1 0 0).2.1
        = s1 := congrArg Prod.fst hstep
    rw [mt_down_allOk allOk_env0 2 0 0 (⟨trk10, 1000000, 1⟩ : MT) d 1 0 0
      (by omega) (by omega)] at h
    dsimp only at h
    rw [← h]
    rw [if_pos (by norm_num [TRACKING_ID_CEILING] :
      (1000000 : Int) + 1 > TRACKING_ID_CEILING)]
    norm_num
  rw [hs1]
  show (mt_up env0 2 _ d1 1).2.1 = _
  have htid : (⟨fun j => if j = 1 then 1000000 else trk10 j, 1, 2⟩ :
      MT).tracking 1 ≠ 0 := by
    simp
  rw [mt_up_allOk allOk_env0 2 _ d1 1 (by omega) (by omega) htid]
  dsimp only
  have hB : (fun j => if j = (1 : Int) then 0
      else (⟨fun j => if j = 1 then 1000000 else trk10 j, 1, 2⟩ :
        MT).tracking j) = trk10 := by
    funext j
    by_cases hj : j = 1 <;> simp [trk10, hj]
  rw [hB]
  norm_num

theorem wrap_pairs (k : Nat) :
    ∀ (n : Int) (d : Dev), 2 ≤ n → n + k ≤ TRACKING_ID_CEILING →
      (runMT env0 2 0 0 (List.replicate k pairOps).flatten
        ((⟨trk10, n, 1⟩ : MT), d)).1 = (⟨trk10, n + k, 1⟩ : MT) := by
  induction k with
  | zero =>
    intro n d h2 hb
    show (⟨trk10, n, 1⟩ : MT) = _
    norm_num
  | succ k ih =>
    intro n d h2 hb
    rw [List.replicate_succ, List.flatten_cons, runMT_append]
    rcases hstep : runMT env0 2 0 0 pairOps ((⟨trk10, n, 1⟩ : MT), d)
      with ⟨s1, d1⟩
    have hs1 : s1 = (⟨trk10, n + 1, 1⟩ : MT) := by
      have h : (runMT env0 2 0 0 pairOps ((⟨trk10, n, 1⟩ : MT), d)).1 = s1 :=
        congrArg Prod.fst hstep
      rw [wrap_pair_step n h2 (by push_cast at hb; omega) d] at h
      exact h.symm
    rw [hs1]
    have := ih (n + 1) d1 (by omega) (by push_cast at hb ⊢; omega)
    rw [this]
    congr 1
    push_cast
    ring

theorem wrap_final_down (d : Dev) :
    (runMT env0 2 0 0 [MTOp.down 1 0 0] ((⟨trk10, 1, 1⟩ : MT), d)).1 =
      (⟨fun j => if j = 1 then 1 else trk10 j, 2, 2⟩ : MT) := by
  rw [runMT, List.foldl_cons, List.foldl_nil]
  show (mt_down env0 2 0 0 (⟨trk10, 1, 1⟩ : MT) d 1 0 0).2.1 = _
  rw [mt_down_allOk allOk_env0 2 0 0 (⟨trk10, 1, 1⟩ : MT) d 1 0 0
    (by omega) (by omega)]
  dsimp only
  norm_num [TRACKING_ID_CEILING]

theorem wrap_run :
    (runMT env0 2 0 0 wrapOps (mtInit, dev0)).1 =
      (⟨fun j => if j = 1 then 1 else trk10 j, 2, 2⟩ : MT) := by
  rw [wrapOps, runMT_cons, runMT_append]
  rcases hstep0 : mtStep env0 2 0 0 (mtInit, dev0) (MTOp.down 0 0 0)
    with ⟨s1, d1⟩
  have hs1 : s1 = (⟨trk10, 2, 1⟩ : MT) := by
    have h : (mtStep env0 2 0 0 (mtInit, dev0) (MTOp.down 0 0 0)).1 = s1 :=
      congrArg Prod.fst hstep0
    rw [wrap_step0 dev0] at h
    exact h.symm
  rw [hs1]
  have hsplit : (List.replicate 999999 pairOps).flatten =
      (List.replicate 999998 pairOps).flatten ++ pairOps := by
    rw [show (999999 : Nat) = 999998 + 1 from rfl, List.replicate_succ',
      List.flatten_append, List.flatten_cons, List.flatten_nil,
      List.append_nil]
  rw [hsplit, runMT_append]
  rcases hstep1 : runMT env0 2 0 0 (List.replicate 999998 pairOps).flatten
      ((⟨trk10, 2, 1⟩ : MT), d1) with ⟨s2, d2⟩
  have hs2 : s2 = (⟨trk10, 1000000, 1⟩ : MT) := by
    have h : (runMT env0 2 0 0 (List.replicate 999998 pairOps).flatten
        ((⟨trk10, 2, 1⟩ : MT), d1)).1 = s2 := congrArg Prod.fst hstep1
    rw [wrap_pairs 999998 2 d1 (by omega)
      (by norm_num [TRACKING_ID_CEILING])] at h
    rw [← h]
    congr 1
  rw [hs2]
  rcases hstep2 : runMT env0 2 0 0 pairOps ((⟨trk10, 1000000, 1⟩ : MT), d2)
    with ⟨s3, d3⟩
  have hs3 : s3 = (⟨trk10, 1, 1⟩ : MT) := by
    have h : (runMT env0 2 0 0 pairOps
        ((⟨trk10, 1000000, 1⟩ : MT), d2)).1 = s3 := congrArg Prod.fst hstep2
    rw [wrap_pair_step_wrap d2] at h
    exact h.symm
  rw [hs3]
  exact wrap_final_down d3

/-! ## Commit counts of the multi-touch write lists -/

theorem synReports_mtDownTrace (env : Env) (uiW uiH slot tid lx ly : Int) :
    synReports (mtDownTrace env uiW uiH slot tid lx ly) = 1 := by
  simp [mtDownTrace, synReports, EV_ABS, EV_SYN, ABS_MT_SLOT,
    ABS_MT_TRACKING_ID, ABS_MT_POSITION_X, ABS_MT_POSITION_Y, SYN_MT_REPORT,
    SYN_REPORT]

theorem synReports_mtMoveTrace (env : Env) (uiW uiH slot lx ly : Int) :
    synReports (mtMoveTrace env uiW uiH slot lx ly) = 1 := by
  simp [mtMoveTrace, synReports, EV_ABS, EV_SYN, ABS_MT_SLOT,
    ABS_MT_POSITION_X, ABS_MT_POSITION_Y, SYN_MT_REPORT, SYN_REPORT]

theorem synReports_mtUpTrace (slot : Int) :
    synReports (mtUpTrace slot) = 1 := by
  simp [mtUpTrace, synReports, EV_ABS, EV_SYN, ABS_MT_SLOT,
    ABS_MT_TRACKING_ID, SYN_MT_REPORT, SYN_REPORT]

theorem synReports_btnPair (v : Int) :
    synReports [⟨EV_KEY, BTN_TOUCH, v⟩, ⟨EV_SYN, SYN_REPORT, 0⟩] = 1 := by
  simp [synReports, EV_KEY, EV_SYN, BTN_TOUCH, SYN_REPORT]

/-! ## Shape of the swipe movement-loop events -/

theorem moveSeg_shape (env : Env) (uiW uiH x1 y1 x2 y2 steps j : Int)
    (e : Ev) (he : e ∈ moveSeg env uiW uiH x1 y1 x2 y2 steps j) :
    (e.type = EV_ABS ∧ (e.code = ABS_X ∨ e.code = ABS_Y)) ∨
    (e.type = EV_SYN ∧ e.code = SYN_REPORT) := by
  simp only [moveSeg, List.mem_cons, List.not_mem_nil, or_false] at he
  rcases he with rfl | rfl | rfl
  · exact Or.inl ⟨rfl, Or.inl rfl⟩
  · exact Or.inl ⟨rfl, Or.inr rfl⟩
  · exact Or.inr ⟨rfl, rfl⟩

theorem mem_moveSegs (env : Env) (uiW uiH x1 y1 x2 y2 steps : Int) :
    ∀ (fuel : Nat) (i : Int) (e : Ev),
      e ∈ moveSegs env uiW uiH x1 y1 x2 y2 steps fuel i →
      ∃ j, e ∈ moveSeg env uiW uiH x1 y1 x2 y2 steps j := by
  intro fuel
  induction fuel with
  | zero =>
    intro i e he
    simp [moveSegs] at he
  | succ n ih =>
    intro i e he
    rw [moveSegs, List.mem_append] at he
    rcases he with he | he
    · exact ⟨i, he⟩
    · exact ih (i + 1) e he

/-! ## Claim theorems -/

/-- C1, counterexample to the claim as stated: with the `ABS_MT_POSITION_X`
range `[0, 2147483647]` and UI width `1`, the rescale formula at logical
coordinate `2` yields `4294967294`, which does not fit the `int` return
type of `map_x`; the function returns the wrapped value `-2` instead. -/
theorem c1_counterexample :
    map_x envBig 1 2 = -2 ∧
    Int.tdiv (2 * ((2147483647 : Int) - 0)) 1 + 0 = 4294967294 ∧
    ((-2 : Int) ≠ 4294967294) := by
  decide

/-- C1 (amended): per axis, `map_x`/`map_y` return the coordinate
unchanged when the UI dimension is zero; otherwise they query the
multi-touch position axis first, falling back to the single-touch
position axis, and when a query succeeds they return
`logical_coord * (axis_max - axis_min) / logical_dimension + axis_min`
computed with integer truncating division and reduced into the signed
32-bit range of the `int` return type; when both queries fail they
return the coordinate unchanged. -/
theorem c1_coordinate_mapping (env : Env) (w h lx ly : Int) :
    (w = 0 → map_x env w lx = lx) ∧
    (h = 0 → map_y env h ly = ly) ∧
    (∀ a, env.absinfo ABS_MT_POSITION_X = some a → queryX env = some a) ∧
    (env.absinfo ABS_MT_POSITION_X = none →
      queryX env = env.absinfo ABS_X) ∧
    (∀ a, env.absinfo ABS_MT_POSITION_Y = some a → queryY env = some a) ∧
    (env.absinfo ABS_MT_POSITION_Y = none →
      queryY env = env.absinfo ABS_Y) ∧
    (∀ a, w ≠ 0 → queryX env = some a →
      map_x env w lx =
        int32 (Int.tdiv (lx * (a.maximum - a.minimum)) w + a.minimum)) ∧
    (∀ a, h ≠ 0 → queryY env = some a →
      map_y env h ly =
        int32 (Int.tdiv (ly * (a.maximum - a.minimum)) h + a.minimum)) ∧
    (queryX env = none → map_x env w lx = lx) ∧
    (queryY env = none → map_y env h ly = ly) := by
  refine ⟨?_, ?_, ?_, ?_, ?_, ?_, ?_, ?_, ?_, ?_⟩
  · intro h0; simp [map_x, mapWith, h0]
  · intro h0; simp [map_y, mapWith, h0]
  · intro a ha; simp [queryX, ha]
  · intro ha; simp [queryX, ha]
  · intro a ha; simp [queryY, ha]
  · intro ha; simp [queryY, ha]
  · intro a hw hq; simp [map_x, mapWith, hw, hq, rescale]
  · intro a hh hq; simp [map_y, mapWith, hh, hq, rescale]
  · intro hq; simp [map_x, mapWith, hq]
  · intro hq; simp [map_y, mapWith, hq]

/-- C1 witness: the amended mapping equation evaluated on the wide-axis
device at width `1`, coordinate `2`. -/
theorem c1_witness :
    (1 : Int) ≠ 0 ∧ queryX envBig = some ⟨0, 2147483647⟩ ∧
    map_x envBig 1 2 =
      int32 (Int.tdiv (2 * ((2147483647 : Int) - 0)) 1 + 0) := by
  obtain ⟨-, -, -, -, -, -, h7, -, -, -⟩ :=
    c1_coordinate_mapping envBig 1 1 2 2
  exact ⟨by decide, by decide, h7 ⟨0, 2147483647⟩ (by decide) (by decide)⟩

/-- C3: `swipe 100 100 400 300 500 20` on a device with no axis info
(identity mapping) succeeds, its trace is the zero-hold tap block
(2 commits), then 20 interpolated position pairs each followed by one
commit, then the release commit — 23 commits in total — and the 20th
interpolated point is exactly `(400, 300)`. -/
theorem c3_swipe_scenario :
    (do_swipe env0 0 0 dev0 100 100 400 300 500 20).1 = true ∧
    (do_swipe env0 0 0 dev0 100 100 400 300 500 20).2.trace =
      tapAssertTrace env0 0 0 100 100 ++ tapReleaseTrace ++
        moveSegs env0 0 0 100 100 400 300 20 20 1 ++
        [⟨EV_KEY, BTN_TOUCH, 0⟩, ⟨EV_SYN, SYN_REPORT, 0⟩] ∧
    synReports (tapAssertTrace env0 0 0 100 100 ++ tapReleaseTrace) = 2 ∧
    synReports (moveSegs env0 0 0 100 100 400 300 20 20 1) = 20 ∧
    synReports (do_swipe env0 0 0 dev0 100 100 400 300 500 20).2.trace
      = 23 ∧
    interp 100 400 20 20 = 400 ∧ interp 100 300 20 20 = 300 := by
  decide

/-- C6: `mt_move` and `mt_up` on an out-of-bounds slot or on a slot whose
tracking ID is `0` return failure with the tracker state and the device
history (writes attempted and events emitted) unchanged. -/
theorem c6_inactive_slot_rejected (env : Env) (maxSlots uiW uiH : Int)
    (s : MT) (d : Dev) (slot lx ly : Int)
    (hbad : slot < 0 ∨ maxSlots ≤ slot ∨ s.tracking slot = 0) :
    mt_move env maxSlots uiW uiH s d slot lx ly = (false, s, d) ∧
    mt_up env maxSlots s d slot = (false, s, d) := by
  constructor
  · rw [mt_move, if_pos hbad]
  · rw [mt_up, if_pos hbad]

/-- C6 witness: `mt-move`/`mt-up` on the inactive slot `0` of a fresh
tracker fail without any effect. -/
theorem c6_witness :
    ((0 : Int) < 0 ∨ (2 : Int) ≤ 0 ∨ mtInit.tracking 0 = 0) ∧
    mt_move env0 2 0 0 mtInit dev0 0 5 5 = (false, mtInit, dev0) ∧
    mt_up env0 2 mtInit dev0 0 = (false, mtInit, dev0) := by
  have hbad : (0 : Int) < 0 ∨ (2 : Int) ≤ 0 ∨ mtInit.tracking 0 = 0 :=
    Or.inr (Or.inr rfl)
  have h := c6_inactive_slot_rejected env0 2 0 0 mtInit dev0 0 5 5 hbad
  exact ⟨hbad, h.1, h.2⟩

/-- C7, counterexample to the claim as stated: on the axis range
`[0, 2147483647]` with UI width `1` (a well-formed range and a positive
dimension), coordinate `1` maps to `2147483647` but coordinate `2`
overflows the `int` return type and maps to `-2`, so the mapping is not
monotone. -/
theorem c7_counterexample :
    (1 : Int) < 2 ∧ (0 : Int) < 1 ∧ (0 : Int) ≤ 2147483647 ∧
    queryX envBig = some ⟨0, 2147483647⟩ ∧
    map_x envBig 1 1 = 2147483647 ∧ map_x envBig 1 2 = -2 ∧
    ¬ (map_x envBig 1 1 ≤ map_x envBig 1 2) := by
  decide

/-- C7 (amended): for a positive configured dimension, a queried axis
range with `minimum ≤ maximum`, coordinates `x1 < x2`, and rescaled
values that fit the signed 32-bit `int` return type, the coordinate
mapper is monotone: `map(x1) ≤ map(x2)`; this covers both axes and also
the passthrough branches (dimension-set but axis unsupported). -/
theorem c7_mapping_monotone (env : Env) (w h x1 x2 y1 y2 : Int)
    (hw : 0 < w) (hh : 0 < h) (hx : x1 < x2) (hy : y1 < y2)
    (hqx : ∀ a, queryX env = some a → a.minimum ≤ a.maximum ∧
      inInt32 (rescale a w x1) ∧ inInt32 (rescale a w x2))
    (hqy : ∀ a, queryY env = some a → a.minimum ≤ a.maximum ∧
      inInt32 (rescale a h y1) ∧ inInt32 (rescale a h y2)) :
    map_x env w x1 ≤ map_x env w x2 ∧ map_y env h y1 ≤ map_y env h y2 :=
  ⟨mapWith_mono hw hx.le hqx, mapWith_mono hh hy.le hqy⟩

/-- C7 witness: monotonicity at concrete inputs on a device whose axis
queries fail (passthrough branch). -/
theorem c7_witness :
    (0 : Int) < 1 ∧ (0 : Int) < 5 ∧
    map_x env0 1 0 ≤ map_x env0 1 5 ∧ map_y env0 1 0 ≤ map_y env0 1 5 := by
  have h := c7_mapping_monotone env0 1 1 0 5 0 5 (by decide) (by decide)
    (by decide) (by decide)
    (fun a ha => by rw [show queryX env0 = none from rfl] at ha; cases ha)
    (fun a ha => by rw [show queryY env0 = none from rfl] at ha; cases ha)
  exact ⟨by decide, by decide, h.1, h.2⟩

/-- C8: `do_longpress` returns exactly the same result and produces
exactly the same device history as `do_tap` at the same coordinates and
hold time (its body is a single `do_tap` call). -/
theorem c8_longpress_equals_tap (env : Env) (uiW uiH : Int) (d : Dev)
    (lx ly hold_ms : Int) :
    do_longpress env uiW uiH d lx ly hold_ms =
      do_tap env uiW uiH d lx ly hold_ms := rfl

/-- C2, counterexample to the claim as stated: a successful
`swipe ... steps=1` emits 4 frame commits, not `steps + 2 = 3` — the
initial `do_tap` contributes 2 commits (down and release), the loop 1,
and the final release 1. -/
theorem c2_counterexample :
    synReports (do_swipe env0 0 0 dev0 0 0 10 10 0 1).2.trace = 4 ∧
    (4 : Nat) ≠ 1 + 2 := by
  decide

/-- C2 (amended): on the success path, tap and longpress emit 2 frame
commits; swipe with `steps ≥ 1` emits `steps + 3`; mt-move emits 1;
mt-down emits 1, or 2 when it is the first active touch (the aggregate
`BTN_TOUCH` assertion adds a commit); mt-up emits 1, or 2 when it
releases the last active touch (the aggregate deassertion adds one). -/
theorem c2_commit_counts (env : Env) (maxSlots uiW uiH : Int) (s : MT)
    (d : Dev) (lx ly hold_ms x1 y1 x2 y2 duration_ms steps slot : Int)
    (h : allOk env) :
    ((do_tap env uiW uiH d lx ly hold_ms).1 = true ∧
     synReports (do_tap env uiW uiH d lx ly hold_ms).2.trace =
       synReports d.trace + 2) ∧
    ((do_longpress env uiW uiH d lx ly hold_ms).1 = true ∧
     synReports (do_longpress env uiW uiH d lx ly hold_ms).2.trace =
       synReports d.trace + 2) ∧
    (1 ≤ steps →
      (do_swipe env uiW uiH d x1 y1 x2 y2 duration_ms steps).1 = true ∧
      synReports (do_swipe env uiW uiH d x1 y1 x2 y2 duration_ms
        steps).2.trace = synReports d.trace + (steps.toNat + 3)) ∧
    (0 ≤ slot → slot < maxSlots → s.tracking slot ≠ 0 →
      (mt_move env maxSlots uiW uiH s d slot lx ly).1 = true ∧
      synReports (mt_move env maxSlots uiW uiH s d slot lx
        ly).2.2.trace = synReports d.trace + 1) ∧
    (0 ≤ slot → slot < maxSlots →
      (mt_down env maxSlots uiW uiH s d slot lx ly).1 = true ∧
      synReports (mt_down env maxSlots uiW uiH s d slot lx ly).2.2.trace =
        synReports d.trace + (if s.active = 0 then 2 else 1)) ∧
    (0 ≤ slot → slot < maxSlots → s.tracking slot ≠ 0 →
      (mt_up env maxSlots s d slot).1 = true ∧
      synReports (mt_up env maxSlots s d slot).2.2.trace =
        synReports d.trace + (if s.active - 1 ≤ 0 then 2 else 1)) := by
  refine ⟨?_, ?_, ?_, ?_, ?_, ?_⟩
  · rw [do_tap_allOk h]
    refine ⟨rfl, ?_⟩
    dsimp only
    rw [synReports_append, synReports_append, synReports_tapAssert,
      synReports_tapRelease]
  · rw [do_longpress, do_tap_allOk h]
    refine ⟨rfl, ?_⟩
    dsimp only
    rw [synReports_append, synReports_append, synReports_tapAssert,
      synReports_tapRelease]
  · intro hs
    rw [do_swipe_allOk h uiW uiH d x1 y1 x2 y2 duration_ms steps hs]
    refine ⟨rfl, ?_⟩
    dsimp only
    rw [synReports_append, synReports_append, synReports_append,
      synReports_append, synReports_tapAssert, synReports_tapRelease,
      synReports_moveSegs, synReports_btnPair]
    omega
  · intro hs0 hsm hact
    rw [mt_move_allOk h maxSlots uiW uiH s d slot lx ly hs0 hsm hact]
    refine ⟨rfl, ?_⟩
    dsimp only
    rw [synReports_append, synReports_mtMoveTrace]
  · intro hs0 hsm
    rw [mt_down_allOk h maxSlots uiW uiH s d slot lx ly hs0 hsm]
    refine ⟨rfl, ?_⟩
    dsimp only
    by_cases hact : s.active = 0
    · simp only [if_pos hact]
      rw [synReports_append, synReports_append, synReports_btnPair,
        synReports_mtDownTrace]
    · simp only [if_neg hact, List.nil_append]
      rw [synReports_append, synReports_mtDownTrace]
  · intro hs0 hsm hact
    rw [mt_up_allOk h maxSlots s d slot hs0 hsm hact]
    refine ⟨rfl, ?_⟩
    dsimp only
    by_cases hle : s.active - 1 ≤ 0
    · simp only [if_pos hle]
      rw [synReports_append, synReports_append, synReports_mtUpTrace,
        synReports_btnPair]
    · simp only [if_neg hle, List.append_nil]
      rw [synReports_append, synReports_mtUpTrace]

/-- C2 witness: the amended commit counts at concrete inputs — a tap, a
2-step swipe and the first mt-down of a fresh tracker. -/
theorem c2_witness :
    (1 : Int) ≤ 2 ∧ (0 : Int) ≤ 0 ∧ (0 : Int) < 2 ∧
    (do_tap env0 0 0 dev0 3 4 100).1 = true ∧
    synReports (do_tap env0 0 0 dev0 3 4 100).2.trace =
      synReports dev0.trace + 2 ∧
    (do_swipe env0 0 0 dev0 0 0 10 10 0 2).1 = true ∧
    synReports (do_swipe env0 0 0 dev0 0 0 10 10 0 2).2.trace =
      synReports dev0.trace + ((2 : Int).toNat + 3) ∧
    synReports (mt_down env0 2 0 0 mtInit dev0 0 3 4).2.2.trace =
      synReports dev0.trace + (if mtInit.active = 0 then 2 else 1) := by
  have h := c2_commit_counts env0 2 0 0 mtInit dev0 3 4 100 0 0 10 10 0 2 0
    allOk_env0
  exact ⟨by decide, by decide, by decide, h.1.1, h.1.2,
    (h.2.2.1 (by decide)).1, (h.2.2.1 (by decide)).2,
    (h.2.2.2.2.1 (by decide) (by decide)).2⟩

/-- C4, counterexample to the claim as stated: `mt-down` does not check
for a re-down on an already-active slot, so after `down 0; down 0` the
active-touch counter is `2` while only one slot holds a nonzero tracking
ID. -/
theorem c4_counterexample :
    (runMT env0 2 0 0 [MTOp.down 0 5 5, MTOp.down 0 6 6]
      (mtInit, dev0)).1.active = 2 ∧
    activeCount 2 (runMT env0 2 0 0 [MTOp.down 0 5 5, MTOp.down 0 6 6]
      (mtInit, dev0)).1 = 1 ∧
    ¬ ((runMT env0 2 0 0 [MTOp.down 0 5 5, MTOp.down 0 6 6]
      (mtInit, dev0)).1.active =
      (activeCount 2 (runMT env0 2 0 0 [MTOp.down 0 5 5, MTOp.down 0 6 6]
        (mtInit, dev0)).1 : Int)) := by
  decide

/-- C4 (amended): on the success path (every write succeeds), after any
sequence of mt operations from the all-zero table in which no `down`
lands on an already-active slot, the active-touch counter equals the
number of slots with nonzero tracking ID, and the `BTN_TOUCH` state the
kernel last saw is asserted iff that count is positive. -/
theorem c4_active_count_invariant (env : Env) (maxSlots uiW uiH : Int)
    (ops : List MTOp) (h : allOk env)
    (hf : downsFresh env maxSlots uiW uiH (mtInit, dev0) ops = true) :
    (runMT env maxSlots uiW uiH ops (mtInit, dev0)).1.active =
      (activeCount maxSlots
        (runMT env maxSlots uiW uiH ops (mtInit, dev0)).1 : Int) ∧
    (btnTouchVal (runMT env maxSlots uiW uiH ops (mtInit, dev0)).2.trace = 1
      ↔ 0 < (runMT env maxSlots uiW uiH ops (mtInit, dev0)).1.active) := by
  have hinit : InvMT maxSlots mtInit dev0 := by
    refine ⟨?_, ?_, by norm_num [mtInit],
      by norm_num [mtInit, TRACKING_ID_CEILING]⟩
    · show (0 : Int) = _
      rw [activeCount, activeCountAux_mtInit]
      rfl
    · show btnTouchVal [] = 1 ↔ (0 : Int) < 0
      norm_num [btnTouchVal]
  have h2 := InvMT_run h ops (mtInit, dev0) hinit hf
  exact ⟨h2.1, h2.2.1⟩

/-- C4 witness: the invariant after `down 0; down 1; up 0` on a
two-slot tracker. -/
theorem c4_witness :
    downsFresh env0 2 0 0 (mtInit, dev0)
      [MTOp.down 0 1 1, MTOp.down 1 2 2, MTOp.up 0] = true ∧
    (runMT env0 2 0 0 [MTOp.down 0 1 1, MTOp.down 1 2 2, MTOp.up 0]
      (mtInit, dev0)).1.active =
      (activeCount 2 (runMT env0 2 0 0
        [MTOp.down 0 1 1, MTOp.down 1 2 2, MTOp.up 0]
        (mtInit, dev0)).1 : Int) ∧
    (btnTouchVal (runMT env0 2 0 0
        [MTOp.down 0 1 1, MTOp.down 1 2 2, MTOp.up 0]
        (mtInit, dev0)).2.trace = 1 ↔
      0 < (runMT env0 2 0 0 [MTOp.down 0 1 1, MTOp.down 1 2 2, MTOp.up 0]
        (mtInit, dev0)).1.active) := by
  have h := c4_active_count_invariant env0 2 0 0
    [MTOp.down 0 1 1, MTOp.down 1 2 2, MTOp.up 0] allOk_env0 (by decide)
  exact ⟨by decide, h.1, h.2⟩

/-- C5, counterexample to the claim as stated: hold slot `0` (tracking
ID `1`), run `999999` down/up cycles on slot `1` so the allocation
counter walks to `1000000` and wraps to `1`, then `down 1` assigns
tracking ID `1` again — two simultaneously active slots now share one
tracking ID. -/
theorem c5_counterexample :
    (runMT env0 2 0 0 wrapOps (mtInit, dev0)).1.tracking 0 = 1 ∧
    (runMT env0 2 0 0 wrapOps (mtInit, dev0)).1.tracking 1 = 1 ∧
    (runMT env0 2 0 0 wrapOps (mtInit, dev0)).1.tracking 0 ≠ 0 ∧
    ((0 : Int) ≠ 1) := by
  refine ⟨?_, ?_, ?_, by decide⟩ <;> rw [wrap_run] <;> simp [trk10]

/-- C5 (amended): starting from a fresh tracker, as long as fewer than
`1000000` in-bounds `down` operations occur, no two simultaneously
active slots share a tracking ID; every active slot's ID is at least `1`
(never `0`); and each in-bounds `mt_down` advances the allocation
counter by one, wrapping to `1` once it would exceed the ceiling
`1000000`. -/
theorem c5_tracking_ids (env : Env) (maxSlots uiW uiH : Int)
    (ops : List MTOp) (d : Dev)
    (hcnt : (allocCount maxSlots ops : Int) ≤ 999999) :
    TidDistinct maxSlots (runMT env maxSlots uiW uiH ops (mtInit, d)).1 ∧
    (∀ i : Int, 0 ≤ i → i < maxSlots →
      (runMT env maxSlots uiW uiH ops (mtInit, d)).1.tracking i = 0 ∨
      1 ≤ (runMT env maxSlots uiW uiH ops (mtInit, d)).1.tracking i) ∧
    (∀ (s : MT) (d' : Dev) (slot lx ly : Int), 0 ≤ slot → slot < maxSlots →
      (mt_down env maxSlots uiW uiH s d' slot lx ly).2.1.nextId =
        (if s.nextId + 1 > TRACKING_ID_CEILING then 1
         else s.nextId + 1)) := by
  have hinit_d : TidDistinct maxSlots mtInit := by
    intro i j _ _ _ _ _ hni _
    exact absurd rfl hni
  have hinit_b : TidBounded maxSlots mtInit := fun i _ _ => Or.inl rfl
  have hceil : TRACKING_ID_CEILING = (1000000 : Int) := rfl
  have h := TidInv_run env maxSlots uiW uiH ops mtInit d hinit_d hinit_b
    (by norm_num [mtInit]) (by norm_num [mtInit]; omega)
  refine ⟨h.1, ?_, ?_⟩
  · intro i h1 h2
    rcases h.2.1 i h1 h2 with h0 | ⟨hl, _⟩
    · exact Or.inl h0
    · exact Or.inr hl
  · intro s d' slot lx ly hs0 hsm
    exact (mt_down_mtState env maxSlots uiW uiH s d' slot lx ly hs0 hsm).2

/-- C5 witness: distinctness and the counter law after two downs on a
fresh two-slot tracker. -/
theorem c5_witness :
    ((allocCount 2 [MTOp.down 0 1 1, MTOp.down 1 2 2] : Int) ≤ 999999) ∧
    TidDistinct 2 (runMT env0 2 0 0 [MTOp.down 0 1 1, MTOp.down 1 2 2]
      (mtInit, dev0)).1 ∧
    (runMT env0 2 0 0 [MTOp.down 0 1 1, MTOp.down 1 2 2]
      (mtInit, dev0)).1.tracking 0 = 1 ∧
    (runMT env0 2 0 0 [MTOp.down 0 1 1, MTOp.down 1 2 2]
      (mtInit, dev0)).1.tracking 1 = 2 := by
  have h := c5_tracking_ids env0 2 0 0 [MTOp.down 0 1 1, MTOp.down 1 2 2]
    dev0 (by decide)
  exact ⟨by decide, h.1, by decide, by decide⟩

/-- C9: `mt_down` on an in-bounds slot consumes the next tracking ID and
marks the slot active before any write is attempted, for every device
behaviour: the slot's entry equals the old counter value (nonzero) and
the counter has advanced even when the operation fails.  If the
aggregate `BTN_TOUCH` assertion (issued when the active count was `0`)
fails, the operation returns failure with the active count not yet
incremented; once that phase succeeds the count is incremented even if a
later write fails, and the result is then the per-slot write chain's. -/
theorem c9_mt_down_not_atomic (env : Env) (maxSlots uiW uiH : Int)
    (s : MT) (d : Dev) (slot lx ly : Int) (hs0 : 0 ≤ slot)
    (hsm : slot < maxSlots) (hn1 : 1 ≤ s.nextId) :
    (mt_down env maxSlots uiW uiH s d slot lx ly).2.1.tracking slot =
      s.nextId ∧
    (mt_down env maxSlots uiW uiH s d slot lx ly).2.1.tracking slot ≠ 0 ∧
    (mt_down env maxSlots uiW uiH s d slot lx ly).2.1.nextId =
      (if s.nextId + 1 > TRACKING_ID_CEILING then 1 else s.nextId + 1) ∧
    (s.active = 0 → (btn_touch_set env d 1).1 = false →
      (mt_down env maxSlots uiW uiH s d slot lx ly).1 = false ∧
      (mt_down env maxSlots uiW uiH s d slot lx ly).2.1.active =
        s.active) ∧
    (s.active = 0 → (btn_touch_set env d 1).1 = true →
      (mt_down env maxSlots uiW uiH s d slot lx ly).2.1.active =
        s.active + 1 ∧
      (mt_down env maxSlots uiW uiH s d slot lx ly).1 =
        (writeSeq env (btn_touch_set env d 1).2
          (mtDownTrace env uiW uiH slot s.nextId lx ly)).1) ∧
    (s.active ≠ 0 →
      (mt_down env maxSlots uiW uiH s d slot lx ly).2.1.active =
        s.active + 1 ∧
      (mt_down env maxSlots uiW uiH s d slot lx ly).1 =
        (writeSeq env d (mtDownTrace env uiW uiH slot s.nextId lx
          ly)).1) := by
  obtain ⟨htr, hnx⟩ :=
    mt_down_mtState env maxSlots uiW uiH s d slot lx ly hs0 hsm
  have hg : ¬ (slot < 0 ∨ maxSlots ≤ slot) := by omega
  refine ⟨?_, ?_, hnx, ?_, ?_, ?_⟩
  · rw [htr slot, if_pos rfl]
  · rw [htr slot, if_pos rfl]
    omega
  · intro hact hbt
    rw [mt_down, if_neg hg]
    dsimp only
    simp only [if_pos hact, hbt, Bool.false_eq_true, if_false]
    constructor <;> trivial
  · intro hact hbt
    rw [mt_down, if_neg hg]
    dsimp only
    simp only [if_pos hact, hbt, if_true]
    constructor <;> trivial
  · intro hact
    rw [mt_down, if_neg hg]
    dsimp only
    simp only [if_neg hact]
    constructor <;> trivial

/-- C9 witness: on a device whose writes all fail, a first `mt-down`
marks slot `0` active with tracking ID `1` yet returns failure with the
active count still `0`. -/
theorem c9_witness :
    (0 : Int) ≤ 0 ∧ (0 : Int) < 2 ∧ (1 : Int) ≤ mtInit.nextId ∧
    mtInit.active = 0 ∧ (btn_touch_set envFail dev0 1).1 = false ∧
    (mt_down envFail 2 0 0 mtInit dev0 0 7 7).2.1.tracking 0 =
      mtInit.nextId ∧
    (mt_down envFail 2 0 0 mtInit dev0 0 7 7).1 = false ∧
    (mt_down envFail 2 0 0 mtInit dev0 0 7 7).2.1.active =
      mtInit.active := by
  have h := c9_mt_down_not_atomic envFail 2 0 0 mtInit dev0 0 7 7
    (by decide) (by decide) (by decide)
  have hb : (btn_touch_set envFail dev0 1).1 = false := by decide
  exact ⟨by decide, by decide, by decide, rfl, hb, h.1,
    (h.2.2.2.1 rfl hb).1, (h.2.2.2.1 rfl hb).2⟩

/-- C10: on the success path the swipe trace is the tap block (whose
contact assertion carries the position on the multi-touch axes
`ABS_MT_POSITION_X/Y`), then the movement segments, then the final
release pair; every movement-phase event is a single-touch position
event (`ABS_X`/`ABS_Y`) or a frame commit, so the movement phase
contains no multi-touch position event and no `SYN_MT_REPORT`. -/
theorem c10_swipe_axes (env : Env) (uiW uiH : Int) (d : Dev)
    (x1 y1 x2 y2 duration_ms steps : Int) (h : allOk env)
    (hs : 1 ≤ steps) :
    (do_swipe env uiW uiH d x1 y1 x2 y2 duration_ms steps).2.trace =
      d.trace ++ (tapAssertTrace env uiW uiH x1 y1 ++ (tapReleaseTrace ++
        (moveSegs env uiW uiH x1 y1 x2 y2 steps steps.toNat 1 ++
         [⟨EV_KEY, BTN_TOUCH, 0⟩, ⟨EV_SYN, SYN_REPORT, 0⟩]))) ∧
    (⟨EV_ABS, ABS_MT_POSITION_X, map_x env uiW x1⟩ : Ev) ∈
      tapAssertTrace env uiW uiH x1 y1 ∧
    (⟨EV_ABS, ABS_MT_POSITION_Y, map_y env uiH y1⟩ : Ev) ∈
      tapAssertTrace env uiW uiH x1 y1 ∧
    (∀ e ∈ moveSegs env uiW uiH x1 y1 x2 y2 steps steps.toNat 1,
      (e.type = EV_ABS ∧ (e.code = ABS_X ∨ e.code = ABS_Y)) ∨
      (e.type = EV_SYN ∧ e.code = SYN_REPORT)) ∧
    (∀ e ∈ moveSegs env uiW uiH x1 y1 x2 y2 steps steps.toNat 1,
      ¬ (e.type = EV_ABS ∧ (e.code = ABS_MT_POSITION_X ∨
          e.code = ABS_MT_POSITION_Y)) ∧
      ¬ (e.type = EV_SYN ∧ e.code = SYN_MT_REPORT)) := by
  refine ⟨?_, ?_, ?_, ?_, ?_⟩
  · rw [do_swipe_allOk h uiW uiH d x1 y1 x2 y2 duration_ms steps hs]
  · simp [tapAssertTrace]
  · simp [tapAssertTrace]
  · intro e he
    obtain ⟨j, hj⟩ := mem_moveSegs env uiW uiH x1 y1 x2 y2 steps
      steps.toNat 1 e he
    exact moveSeg_shape env uiW uiH x1 y1 x2 y2 steps j e hj
  · intro e he
    obtain ⟨j, hj⟩ := mem_moveSegs env uiW uiH x1 y1 x2 y2 steps
      steps.toNat 1 e he
    have hshape := moveSeg_shape env uiW uiH x1 y1 x2 y2 steps j e hj
    constructor
    · rintro ⟨ht, hc⟩
      rcases hshape with ⟨ht', hc'⟩ | ⟨ht', hc'⟩
      · simp only [ABS_X, ABS_Y] at hc'
        simp only [ABS_MT_POSITION_X, ABS_MT_POSITION_Y] at hc
        omega
      · rw [ht'] at ht
        simp [EV_SYN, EV_ABS] at ht
    · rintro ⟨ht, hc⟩
      rcases hshape with ⟨ht', hc'⟩ | ⟨ht', hc'⟩
      · rw [ht'] at ht
        simp [EV_SYN, EV_ABS] at ht
      · rw [hc'] at hc
        simp [SYN_REPORT, SYN_MT_REPORT] at hc

/-- C10 witness: the trace decomposition and movement-phase axis facts
for a concrete 3-step swipe on the no-axis-info device. -/
theorem c10_witness :
    (1 : Int) ≤ 3 ∧
    (do_swipe env0 0 0 dev0 0 0 9 9 0 3).2.trace =
      dev0.trace ++ (tapAssertTrace env0 0 0 0 0 ++ (tapReleaseTrace ++
        (moveSegs env0 0 0 0 0 9 9 3 (3 : Int).toNat 1 ++
         [⟨EV_KEY, BTN_TOUCH, 0⟩, ⟨EV_SYN, SYN_REPORT, 0⟩]))) ∧
    (∀ e ∈ moveSegs env0 0 0 0 0 9 9 3 (3 : Int).toNat 1,
      ¬ (e.type = EV_ABS ∧ (e.code = ABS_MT_POSITION_X ∨
          e.code = ABS_MT_POSITION_Y)) ∧
      ¬ (e.type = EV_SYN ∧ e.code = SYN_MT_REPORT)) := by
  have h := c10_swipe_axes env0 0 0 dev0 0 0 9 9 0 3 allOk_env0 (by decide)
  exact ⟨by decide, h.1, h.2.2.2.2⟩

end Uinput
